import Mathlib

/-!
Verification development for the EOgmaNeo `Layer` component
(src/source/eogmaneo/Layer.h).

The header file declares the data model (all member buffers of `Layer`,
the `VisibleLayerDesc` configuration record) and gives inline bodies for
the accessors, including the flat stride/offset addressing formula
`i = v + numVisibleLayers * (x + y * hiddenWidth)`.  The bodies of
`create`, `forward`, `backward` and the stream serialization are not part
of the available sources; those operations are modelled from the
specification (marked `Modelled from the spec:` below), faithful to the
spec's description of the chunked sparse representation, the
winner-take-all forward pass, the prediction/backward pass, per-chunk
work partitioning, and the stream layout.

C++ `std::vector` buffers are embedded as Lean `List`s, `int`-valued
chunk winners as `Nat` (they are indices produced by arg-max selection),
configuration `int`s as `Int`, and `float` as `Int`, an exact totally
ordered carrier: the spec (§9) leaves the numeric form of the learning
rules open, and no claim verified here depends on rounding or on the
float format — only on weight values being carried, compared and copied
deterministically, which any exact carrier models faithfully.
-/

namespace eogmaneo

/-- Embedded from `VisibleLayerDesc` in Layer.h: per-input-source
configuration (width, height, chunk size, connectivity radius, predict
flag).  The C++ default constructor values are kept as field defaults. -/
structure VisibleLayerDesc where
  width : Int := 36
  height : Int := 36
  chunkSize : Int := 6
  radius : Int := 9
  predict : Bool := true
deriving Repr, DecidableEq

instance : Inhabited VisibleLayerDesc := ⟨{}⟩

/-- Embedded from the `Layer` class in Layer.h: every private member
buffer of the C++ class, in declaration order.  Note the class has *no*
previous-hidden-state buffer: the only `*Prev` members are the recon
accumulators, the prediction activations, the inputs and the feedback. -/
structure Layer where
  hiddenWidth : Nat
  hiddenHeight : Nat
  chunkSize : Nat
  hiddenStates : List Nat
  feedForwardWeights : List (List Int)
  predictionWeights : List (List (List Int))
  reconActivations : List (List Int)
  reconCounts : List (List Int)
  reconActivationsPrev : List (List Int)
  reconCountsPrev : List (List Int)
  visibleLayerDescs : List VisibleLayerDesc
  predictions : List (List Nat)
  predictionActivations : List (List Int)
  predictionCounts : List (List Int)
  predictionActivationsPrev : List (List Int)
  inputs : List (List Nat)
  inputsPrev : List (List Nat)
  feedBack : List (List Nat)
  feedBackPrev : List (List Nat)
  alpha : Int
  beta : Int
  gamma : Int
deriving Repr, DecidableEq

/-! Accessors, embedded from the inline bodies in Layer.h.  The C++
accessors index their vectors without bounds checks; the total embedding
returns `Option`, with `none` exactly on the out-of-bounds branch. -/

def Layer.getHiddenWidth (l : Layer) : Nat := l.hiddenWidth

def Layer.getHiddenHeight (l : Layer) : Nat := l.hiddenHeight

def Layer.getChunkSize (l : Layer) : Nat := l.chunkSize

def Layer.getNumVisibleLayers (l : Layer) : Nat := l.visibleLayerDescs.length

def Layer.getVisibleLayerDesc (l : Layer) (v : Nat) : Option VisibleLayerDesc :=
  l.visibleLayerDescs[v]?

def Layer.getNumFeedBackLayers (l : Layer) : Nat := l.feedBack.length

def Layer.getHiddenStates (l : Layer) : List Nat := l.hiddenStates

def Layer.getInputs (l : Layer) (v : Nat) : Option (List Nat) := l.inputs[v]?

def Layer.getPredictions (l : Layer) (v : Nat) : Option (List Nat) := l.predictions[v]?

def Layer.getFeedBack (l : Layer) (f : Nat) : Option (List Nat) := l.feedBack[f]?

def Layer.getFeedBackPrev (l : Layer) (f : Nat) : Option (List Nat) := l.feedBackPrev[f]?

/-- Embedded from Layer.h: the shared flat stride/offset formula
`i = v + _visibleLayerDescs.size() * (x + y * _hiddenWidth)` used by both
weight accessors. -/
def Layer.ffIndex (l : Layer) (v x y : Nat) : Nat :=
  v + l.visibleLayerDescs.length * (x + y * l.hiddenWidth)

def Layer.getFeedForwardWeights (l : Layer) (v x y : Nat) : Option (List Int) :=
  l.feedForwardWeights[l.ffIndex v x y]?

def Layer.getPredictionWeights (l : Layer) (f v x y : Nat) : Option (List Int) :=
  (l.predictionWeights[f]?).bind fun ws => ws[l.ffIndex v x y]?

/-! Radius-limited windows.  Modelled from the spec: radius `r` defines
the `(2r+1)²` window around a unit's projected centre, clipped at the
image boundaries with no wraparound. -/

/-- Modelled from the spec: lower bound of the clipped window along one
axis (`Nat` subtraction clips at 0, the left image boundary). -/
def windowLow (c r : Nat) : Nat := c - r

/-- Modelled from the spec: upper bound (inclusive) of the clipped window
along one axis of extent `n` (clipped at the right image boundary). -/
def windowHigh (c r n : Nat) : Nat := min (c + r) (n - 1)

/-- Modelled from the spec: number of visible coordinates of the clipped
window along one axis. -/
def windowExtent (c r n : Nat) : Nat := windowHigh c r n + 1 - windowLow c r

/-- Modelled from the spec: the coordinates of the clipped window along
one axis, in increasing order. -/
def axisWindow (c r n : Nat) : List Nat :=
  (List.range (windowExtent c r n)).map fun k => windowLow c r + k

/-- Modelled from the spec: the full clipped 2-D window of a unit with
projected centre `(cx, cy)` and radius `r` inside a `w × h` visible
image, as an ordered list of visible coordinates (row-major). -/
def windowList (w h cx cy r : Nat) : List (Nat × Nat) :=
  (axisWindow cy r h).flatMap fun qy => (axisWindow cx r w).map fun qx => (qx, qy)

/-- Modelled from the spec: proportional projection of a hidden
coordinate onto a visible axis (corner-preserving, monotone; the exact
projection is interface-underdetermined, but any such projection maps
grid corners to image corners). -/
def project (x hn vn : Nat) : Nat := x * vn / hn

/-- Modelled from the spec: the connected window of hidden unit `(x, y)`
(hidden grid `W × H`) into the visible layer described by `d`. -/
def descWindow (d : VisibleLayerDesc) (W H x y : Nat) : List (Nat × Nat) :=
  windowList d.width.toNat d.height.toNat
    (project x W d.width.toNat) (project y H d.height.toNat) d.radius.toNat

/-- Modelled from the spec: number of chunks of the visible layer
described by `d` (chunk grid is `(width / chunkSize) × (height / chunkSize)`). -/
def numVisChunks (d : VisibleLayerDesc) : Nat :=
  (d.width.toNat / d.chunkSize.toNat) * (d.height.toNat / d.chunkSize.toNat)

/-- Modelled from the spec: the chunk index owning visible position
`(qx, qy)` of the layer described by `d`. -/
def visChunkOf (d : VisibleLayerDesc) (q : Nat × Nat) : Nat :=
  q.1 / d.chunkSize.toNat + (q.2 / d.chunkSize.toNat) * (d.width.toNat / d.chunkSize.toNat)

/-- Modelled from the spec: index of visible position `(qx, qy)` among
the `chunkSize²` candidate units of its chunk. -/
def visUnitInChunk (d : VisibleLayerDesc) (q : Nat × Nat) : Nat :=
  q.1 % d.chunkSize.toNat + (q.2 % d.chunkSize.toNat) * d.chunkSize.toNat

/-- Modelled from the spec: deterministic pseudo-random weight
initialisation from the creation seed (spec §4.2 requires only that the
initial weights be a deterministic function of the seed). -/
def initWeight (seed i k : Nat) : Int :=
  (((seed + 2654435761 * i + 40503 * k) % 1000 : Nat) : Int)

/-- Modelled from the spec: a descriptor is invalid when its width,
height, chunk size or radius is non-positive (spec §4.2/§7). -/
def VisibleLayerDesc.invalid (d : VisibleLayerDesc) : Bool :=
  decide (d.width ≤ 0) || decide (d.height ≤ 0) ||
  decide (d.chunkSize ≤ 0) || decide (d.radius ≤ 0)

/-- Configuration errors reported synchronously by `create`. -/
inductive ConfigError where
  | emptyDescs
  | badDesc (i : Nat)
deriving Repr, DecidableEq

/-- Decomposition helpers for the flat weight store index
`i = v + numV * (x + y * W)`. -/
def flatV (numV i : Nat) : Nat := i % numV

def flatX (numV W i : Nat) : Nat := i / numV % W

def flatY (numV W i : Nat) : Nat := i / numV / W

/-- Modelled from the spec: initial feed-forward weight vector of flat
unit index `i`, sized to the clipped window of that unit. -/
def ffInitVec (descs : List VisibleLayerDesc) (W H seed i : Nat) : List Int :=
  (List.range (descWindow (descs.getD (flatV descs.length i) {}) W H
    (flatX descs.length W i) (flatY descs.length W i)).length).map
    fun k => initWeight seed i k

/-- Modelled from the spec: initial prediction weight vector of feedback
source `f` at flat unit index `i`; a visible layer with `predict = false`
gets no allocation (the empty vector). -/
def predInitVec (descs : List VisibleLayerDesc) (W H seed f i : Nat) : List Int :=
  if (descs.getD (flatV descs.length i) {}).predict then
    (List.range (descWindow (descs.getD (flatV descs.length i) {}) W H
      (flatX descs.length W i) (flatY descs.length W i)).length).map
      fun k => initWeight (seed + 7919 * (f + 1)) i k
  else []

/-- Modelled from the spec (§4.2): `Layer::create`.  Validates the
descriptor list (reporting a configuration error, with no layer state
constructed, when the list is empty or some descriptor has a
non-positive width, height, chunk size or radius), then allocates the
hidden state, the feed-forward weight store (one clipped-window-sized
vector per hidden unit × visible layer, laid out at flat index
`v + numV * (x + y * W)`), `numFeedBack` prediction weight stores, the
reconstruction accumulators and the current/previous input, feedback and
prediction buffers, with weights seeded deterministically. -/
def Layer.create (hiddenWidth hiddenHeight chunkSize numFeedBack : Int)
    (visibleLayerDescs : List VisibleLayerDesc) (seed : Nat) : Except ConfigError Layer :=
  if visibleLayerDescs.isEmpty then .error .emptyDescs
  else if visibleLayerDescs.any VisibleLayerDesc.invalid then
    .error (.badDesc (visibleLayerDescs.findIdx VisibleLayerDesc.invalid))
  else
    let W := hiddenWidth.toNat
    let H := hiddenHeight.toNat
    let cs := chunkSize.toNat
    let numFB := numFeedBack.toNat
    let numV := visibleLayerDescs.length
    let numChunks := (W / cs) * (H / cs)
    .ok {
      hiddenWidth := W
      hiddenHeight := H
      chunkSize := cs
      hiddenStates := List.replicate numChunks 0
      feedForwardWeights :=
        (List.range (numV * (W * H))).map fun i => ffInitVec visibleLayerDescs W H seed i
      predictionWeights :=
        (List.range numFB).map fun f =>
          (List.range (numV * (W * H))).map fun i => predInitVec visibleLayerDescs W H seed f i
      reconActivations :=
        visibleLayerDescs.map fun d => List.replicate (d.width.toNat * d.height.toNat) 0
      reconCounts :=
        visibleLayerDescs.map fun d => List.replicate (d.width.toNat * d.height.toNat) 0
      reconActivationsPrev :=
        visibleLayerDescs.map fun d => List.replicate (d.width.toNat * d.height.toNat) 0
      reconCountsPrev :=
        visibleLayerDescs.map fun d => List.replicate (d.width.toNat * d.height.toNat) 0
      visibleLayerDescs := visibleLayerDescs
      predictions := visibleLayerDescs.map fun d => List.replicate (numVisChunks d) 0
      predictionActivations :=
        visibleLayerDescs.map fun d => List.replicate (d.width.toNat * d.height.toNat) 0
      predictionCounts :=
        visibleLayerDescs.map fun d => List.replicate (d.width.toNat * d.height.toNat) 0
      predictionActivationsPrev :=
        visibleLayerDescs.map fun d => List.replicate (d.width.toNat * d.height.toNat) 0
      inputs := visibleLayerDescs.map fun d => List.replicate (numVisChunks d) 0
      inputsPrev := visibleLayerDescs.map fun d => List.replicate (numVisChunks d) 0
      feedBack := List.replicate numFB (List.replicate numChunks 0)
      feedBackPrev := List.replicate numFB (List.replicate numChunks 0)
      alpha := 0
      beta := 0
      gamma := 0
    }

/-! Winner-take-all selection.  Modelled from the spec (§4.3/§4.4): the
maximal-activation candidate is selected, ties broken by lowest unit
index (mirroring a strict-improvement scan `if (act > maxAct)`). -/

/-- Modelled from the spec: index of the first maximal element of an
activation list (`0` on the empty list). -/
def argmaxFirst : List Int → Nat
  | [] => 0
  | [_] => 0
  | x :: y :: rest =>
      let j := argmaxFirst (y :: rest)
      if (y :: rest).getD j 0 > x then j + 1 else 0

theorem argmaxFirst_lt_length (xs : List Int) (h : 0 < xs.length) :
    argmaxFirst xs < xs.length := by
  match xs with
  | [_] => simp [argmaxFirst]
  | x :: y :: rest =>
    have ih := argmaxFirst_lt_length (y :: rest) (by simp)
    simp only [argmaxFirst]
    split
    · simpa using Nat.succ_lt_succ ih
    · simp

theorem argmaxFirst_is_max (xs : List Int) (j : Nat) (hj : j < xs.length) :
    xs.getD j 0 ≤ xs.getD (argmaxFirst xs) 0 := by
  match xs with
  | [x] =>
    have hj0 : j = 0 := by simpa using Nat.lt_one_iff.mp (by simpa using hj)
    subst hj0
    simp [argmaxFirst]
  | x :: y :: rest =>
    by_cases hgt : (y :: rest).getD (argmaxFirst (y :: rest)) 0 > x
    · simp only [argmaxFirst, if_pos hgt]
      match j with
      | 0 => exact le_of_lt (by simpa using hgt)
      | j + 1 =>
        have := argmaxFirst_is_max (y :: rest) j (by simpa using hj)
        simpa using this
    · simp only [argmaxFirst, if_neg hgt]
      push_neg at hgt
      match j with
      | 0 => simp
      | j + 1 =>
        have h1 := argmaxFirst_is_max (y :: rest) j (by simpa using hj)
        calc (x :: y :: rest).getD (j + 1) 0
            ≤ (y :: rest).getD (argmaxFirst (y :: rest)) 0 := by simpa using h1
          _ ≤ x := hgt
          _ = (x :: y :: rest).getD 0 0 := rfl

theorem argmaxFirst_first (xs : List Int) (j : Nat) (hj : j < xs.length)
    (heq : xs.getD j 0 = xs.getD (argmaxFirst xs) 0) : argmaxFirst xs ≤ j := by
  match xs with
  | [x] => simp [argmaxFirst]
  | x :: y :: rest =>
    by_cases hgt : (y :: rest).getD (argmaxFirst (y :: rest)) 0 > x
    · simp only [argmaxFirst, if_pos hgt] at heq ⊢
      match j with
      | 0 =>
        exfalso
        have hx : x = (y :: rest).getD (argmaxFirst (y :: rest)) 0 := by simpa using heq
        rw [hx] at hgt
        exact lt_irrefl _ hgt
      | j + 1 =>
        have h2 := argmaxFirst_first (y :: rest) j (by simpa using hj) (by simpa using heq)
        omega
    · simp only [argmaxFirst, if_neg hgt]
      exact Nat.zero_le j

/-! Addressed writes into nested list buffers.  These model the per-chunk
work items' in-place mutations of the layer's flat stores; the
commutation lemmas below express that writes to distinct addresses can be
executed in any order (the spec's exclusive per-chunk ownership, §4.5/§5). -/

/-- Apply an ordered list of `(index, value)` writes to a flat buffer. -/
def setMany (l : List α) (ws : List (Nat × α)) : List α :=
  ws.foldl (fun acc w => acc.set w.1 w.2) l

/-- Write one cell of a two-level nested buffer (no-op out of range,
like `List.set`). -/
def set2 : List (List α) → Nat → Nat → α → List (List α)
  | [], _, _, _ => []
  | r :: rs, 0, j, a => r.set j a :: rs
  | r :: rs, i + 1, j, a => r :: set2 rs i j a

/-- Apply an ordered list of `((i, j), value)` writes to a two-level
nested buffer. -/
def setMany2 (l : List (List α)) (ws : List ((Nat × Nat) × α)) : List (List α) :=
  ws.foldl (fun acc w => set2 acc w.1.1 w.1.2 w.2) l

/-- Write one cell of a three-level nested buffer. -/
def set3 : List (List (List α)) → Nat → Nat → Nat → α → List (List (List α))
  | [], _, _, _, _ => []
  | r :: rs, 0, j, k, a => set2 r j k a :: rs
  | r :: rs, i + 1, j, k, a => r :: set3 rs i j k a

/-- Apply an ordered list of `((f, i, k), value)` writes to a three-level
nested buffer. -/
def setMany3 (l : List (List (List α))) (ws : List ((Nat × Nat × Nat) × α)) :
    List (List (List α)) :=
  ws.foldl (fun acc w => set3 acc w.1.1 w.1.2.1 w.1.2.2 w.2) l

theorem set2_comm (l : List (List α)) (i1 j1 i2 j2 : Nat) (a b : α)
    (h : (i1, j1) ≠ (i2, j2)) :
    set2 (set2 l i1 j1 a) i2 j2 b = set2 (set2 l i2 j2 b) i1 j1 a := by
  induction l generalizing i1 i2 with
  | nil => rfl
  | cons r rs ih =>
    match i1, i2 with
    | 0, 0 =>
      have hj : j1 ≠ j2 := by
        intro hc
        exact h (by rw [hc])
      simp only [set2]
      rw [List.set_comm a b r hj]
    | 0, i2 + 1 => rfl
    | i1 + 1, 0 => rfl
    | i1 + 1, i2 + 1 =>
      simp only [set2]
      rw [ih i1 i2 (by simpa using h)]

theorem set3_comm (l : List (List (List α))) (i1 j1 k1 i2 j2 k2 : Nat) (a b : α)
    (h : (i1, j1, k1) ≠ (i2, j2, k2)) :
    set3 (set3 l i1 j1 k1 a) i2 j2 k2 b = set3 (set3 l i2 j2 k2 b) i1 j1 k1 a := by
  induction l generalizing i1 i2 with
  | nil => rfl
  | cons r rs ih =>
    match i1, i2 with
    | 0, 0 =>
      have hj : (j1, k1) ≠ (j2, k2) := by
        intro hc
        apply h
        rw [Prod.mk.injEq] at hc ⊢
        exact ⟨rfl, by rw [Prod.mk.injEq]; exact ⟨hc.1, hc.2⟩⟩
      simp only [set3]
      rw [set2_comm r j1 k1 j2 k2 a b hj]
    | 0, i2 + 1 => rfl
    | i1 + 1, 0 => rfl
    | i1 + 1, i2 + 1 =>
      simp only [set3]
      rw [ih i1 i2 (by simpa using h)]

theorem set_setMany_comm (l : List α) (i : Nat) (a : α) (ws : List (Nat × α))
    (h : ∀ w ∈ ws, w.1 ≠ i) :
    setMany (l.set i a) ws = (setMany l ws).set i a := by
  induction ws generalizing l with
  | nil => rfl
  | cons w ws ih =>
    simp only [setMany, List.foldl_cons] at *
    rw [List.set_comm a w.2 l (fun hc => h w (by simp) (by rw [hc]))]
    exact ih (l.set w.1 w.2) (fun w' hw' => h w' (by simp [hw']))

theorem setMany_cons (l : List α) (w : Nat × α) (ws : List (Nat × α)) :
    setMany l (w :: ws) = setMany (l.set w.1 w.2) ws := rfl

theorem setMany2_cons (l : List (List α)) (w : (Nat × Nat) × α) (ws : List ((Nat × Nat) × α)) :
    setMany2 l (w :: ws) = setMany2 (set2 l w.1.1 w.1.2 w.2) ws := rfl

theorem setMany3_cons (l : List (List (List α))) (w : (Nat × Nat × Nat) × α)
    (ws : List ((Nat × Nat × Nat) × α)) :
    setMany3 l (w :: ws) = setMany3 (set3 l w.1.1 w.1.2.1 w.1.2.2 w.2) ws := rfl

theorem setMany_comm (l : List α) (ws1 ws2 : List (Nat × α))
    (h : ∀ w1 ∈ ws1, ∀ w2 ∈ ws2, w1.1 ≠ w2.1) :
    setMany (setMany l ws1) ws2 = setMany (setMany l ws2) ws1 := by
  induction ws1 generalizing l with
  | nil => rfl
  | cons w ws1 ih =>
    rw [setMany_cons, setMany_cons,
      ih (l.set w.1 w.2) (fun w1 hw1 w2 hw2 => h w1 (List.mem_cons_of_mem _ hw1) w2 hw2),
      set_setMany_comm l w.1 w.2 ws2
        (fun w2 hw2 => (h w (List.mem_cons_self _ _) w2 hw2).symm)]

theorem set2_setMany2_comm (l : List (List α)) (i j : Nat) (a : α)
    (ws : List ((Nat × Nat) × α)) (h : ∀ w ∈ ws, w.1 ≠ (i, j)) :
    setMany2 (set2 l i j a) ws = set2 (setMany2 l ws) i j a := by
  induction ws generalizing l with
  | nil => rfl
  | cons w ws ih =>
    rw [setMany2_cons, setMany2_cons,
      set2_comm l i j w.1.1 w.1.2 a w.2 (fun hc => by
        rw [Prod.mk.injEq] at hc
        exact h w (List.mem_cons_self _ _) (Prod.ext_iff.mpr ⟨hc.1.symm, hc.2.symm⟩))]
    exact ih (set2 l w.1.1 w.1.2 w.2) (fun w' hw' => h w' (List.mem_cons_of_mem _ hw'))

theorem setMany2_comm (l : List (List α)) (ws1 ws2 : List ((Nat × Nat) × α))
    (h : ∀ w1 ∈ ws1, ∀ w2 ∈ ws2, w1.1 ≠ w2.1) :
    setMany2 (setMany2 l ws1) ws2 = setMany2 (setMany2 l ws2) ws1 := by
  induction ws1 generalizing l with
  | nil => rfl
  | cons w ws1 ih =>
    rw [setMany2_cons, setMany2_cons,
      ih (set2 l w.1.1 w.1.2 w.2) (fun w1 hw1 w2 hw2 => h w1 (List.mem_cons_of_mem _ hw1) w2 hw2),
      set2_setMany2_comm l w.1.1 w.1.2 w.2 ws2 (fun w2 hw2 hc => by
        have h1 := h w (List.mem_cons_self _ _) w2 hw2
        rw [hc] at h1
        exact h1 Prod.mk.eta.symm)]

theorem set3_setMany3_comm (l : List (List (List α))) (i j k : Nat) (a : α)
    (ws : List ((Nat × Nat × Nat) × α)) (h : ∀ w ∈ ws, w.1 ≠ (i, j, k)) :
    setMany3 (set3 l i j k a) ws = set3 (setMany3 l ws) i j k a := by
  induction ws generalizing l with
  | nil => rfl
  | cons w ws ih =>
    rw [setMany3_cons, setMany3_cons,
      set3_comm l i j k w.1.1 w.1.2.1 w.1.2.2 a w.2 (fun hc => by
        rw [Prod.mk.injEq, Prod.mk.injEq] at hc
        apply h w (List.mem_cons_self _ _)
        rw [Prod.ext_iff, Prod.ext_iff]
        exact ⟨hc.1.symm, hc.2.1.symm, hc.2.2.symm⟩)]
    exact ih (set3 l w.1.1 w.1.2.1 w.1.2.2 w.2) (fun w' hw' => h w' (List.mem_cons_of_mem _ hw'))

theorem setMany3_comm (l : List (List (List α))) (ws1 ws2 : List ((Nat × Nat × Nat) × α))
    (h : ∀ w1 ∈ ws1, ∀ w2 ∈ ws2, w1.1 ≠ w2.1) :
    setMany3 (setMany3 l ws1) ws2 = setMany3 (setMany3 l ws2) ws1 := by
  induction ws1 generalizing l with
  | nil => rfl
  | cons w ws1 ih =>
    rw [setMany3_cons, setMany3_cons,
      ih (set3 l w.1.1 w.1.2.1 w.1.2.2 w.2)
        (fun w1 hw1 w2 hw2 => h w1 (List.mem_cons_of_mem _ hw1) w2 hw2),
      set3_setMany3_comm l w.1.1 w.1.2.1 w.1.2.2 w.2 ws2 (fun w2 hw2 hc => by
        have h1 := h w (List.mem_cons_self _ _) w2 hw2
        rw [hc] at h1
        apply h1
        rw [Prod.ext_iff, Prod.ext_iff]
        exact ⟨rfl, rfl, rfl⟩)]

/-! Hidden chunk geometry. -/

/-- Width of the hidden chunk grid. -/
def hiddenChunksX (L : Layer) : Nat := L.hiddenWidth / L.chunkSize

/-- Height of the hidden chunk grid. -/
def hiddenChunksY (L : Layer) : Nat := L.hiddenHeight / L.chunkSize

/-- Number of hidden chunks (one forward work item per chunk). -/
def numHiddenChunks (L : Layer) : Nat := hiddenChunksX L * hiddenChunksY L

/-- Hidden x-coordinate of candidate unit `w` of hidden chunk `c`. -/
def chunkUnitX (L : Layer) (c w : Nat) : Nat :=
  (c % hiddenChunksX L) * L.chunkSize + w % L.chunkSize

/-- Hidden y-coordinate of candidate unit `w` of hidden chunk `c`. -/
def chunkUnitY (L : Layer) (c w : Nat) : Nat :=
  (c / hiddenChunksX L) * L.chunkSize + w / L.chunkSize

/-- Descriptor of visible layer `v` (defaulted out of range, mirroring the
unchecked C++ indexing). -/
def descAt (L : Layer) (v : Nat) : VisibleLayerDesc := L.visibleLayerDescs.getD v {}

/-- Modelled from the spec: whether the current input SDR of visible
layer `v` marks visible position `q` as its chunk's active unit. -/
def inputActive (L : Layer) (v : Nat) (q : Nat × Nat) : Bool :=
  decide ((L.inputs.getD v []).getD (visChunkOf (descAt L v) q) 0 = visUnitInChunk (descAt L v) q)

/-- Modelled from the spec (§4.3): feed-forward activation of candidate
unit `w` of hidden chunk `c` — the window-weighted match of the unit's
feed-forward weights against every visible layer's current input. -/
def ffActivation (L : Layer) (c w : Nat) : Int :=
  ((List.range L.visibleLayerDescs.length).map fun v =>
    let d := descAt L v
    let ux := chunkUnitX L c w
    let uy := chunkUnitY L c w
    let win := descWindow d L.hiddenWidth L.hiddenHeight ux uy
    let wvec := L.feedForwardWeights.getD (L.ffIndex v ux uy) []
    ((List.range win.length).map fun k =>
      if inputActive L v (win.getD k (0, 0)) then wvec.getD k 0 else 0).sum).sum

/-- Activations of the `chunkSize²` candidate units of hidden chunk `c`. -/
def chunkActs (L : Layer) (c : Nat) : List Int :=
  (List.range (L.chunkSize * L.chunkSize)).map (ffActivation L c)

/-- Modelled from the spec (§4.3): the new winner of hidden chunk `c` —
the maximal-activation candidate, ties broken by lowest unit index. -/
def chunkWinner (L : Layer) (c : Nat) : Nat := argmaxFirst (chunkActs L c)

/-- Modelled from the spec (§4.3): updated feed-forward weight vector of
the winning unit of chunk `c` for visible layer `v` — moved toward
reconstructing the current input (rate `alpha`), decayed by `gamma`. -/
def ffUpdatedVec (L : Layer) (c v : Nat) : List Int :=
  let w := chunkWinner L c
  let ux := chunkUnitX L c w
  let uy := chunkUnitY L c w
  let win := descWindow (descAt L v) L.hiddenWidth L.hiddenHeight ux uy
  let old := L.feedForwardWeights.getD (L.ffIndex v ux uy) []
  (List.range old.length).map fun k =>
    let inp : Int := if inputActive L v (win.getD k (0, 0)) then 1 else 0
    let ow := old.getD k 0
    ow + L.alpha * (inp - ow) - L.gamma * ow

/-- Feed-forward weight-store writes of the forward work item of chunk
`c`: one vector per visible layer, at the winning unit's flat index. -/
def ffWrites (L : Layer) (c : Nat) : List (Nat × List Int) :=
  (List.range L.visibleLayerDescs.length).map fun v =>
    (L.ffIndex v (chunkUnitX L c (chunkWinner L c)) (chunkUnitY L c (chunkWinner L c)),
     ffUpdatedVec L c v)

/-- Modelled from the spec (§4.3/§4.5): the forward work item of hidden
chunk `c` — writes the chunk's new winner and the winning unit's updated
feed-forward weight vectors, everything computed from the pre-batch
snapshot `snap` (each item owns its chunk's state exclusively). -/
def applyForwardChunk (snap : Layer) (s : Layer) (c : Nat) : Layer :=
  { s with
    hiddenStates := s.hiddenStates.set c (chunkWinner snap c)
    feedForwardWeights := setMany s.feedForwardWeights (ffWrites snap c) }

/-- Modelled from the spec (§4.3/§5): the sequential pre-batch phase of
`forward` — the previous inputs and reconstruction accumulators are
copied into the `*Prev` buffers and the new inputs and learning rates
stored, before any chunk work item runs. -/
def forwardSnap (L : Layer) (inputs : List (List Nat)) (alpha gamma : Int) : Layer :=
  { L with
    inputsPrev := L.inputs
    inputs := inputs
    reconActivationsPrev := L.reconActivations
    reconCountsPrev := L.reconCounts
    alpha := alpha
    gamma := gamma }

/-- Modelled from the spec: whether hidden unit `(x, y)` is active, i.e.
is its chunk's reported winner. -/
def hiddenActive (L : Layer) (x y : Nat) : Bool :=
  decide (L.hiddenStates.getD (x / L.chunkSize + (y / L.chunkSize) * hiddenChunksX L) 0
    = x % L.chunkSize + (y % L.chunkSize) * L.chunkSize)

/-- Modelled from the spec: rebuilt reconstruction activation at visible
position `q` of layer `v` — the active hidden units' weights into `q`,
run in the generative direction. -/
def reconAt (L : Layer) (v : Nat) (q : Nat × Nat) : Int :=
  ((List.range (L.hiddenWidth * L.hiddenHeight)).map fun u =>
    let x := u % L.hiddenWidth
    let y := u / L.hiddenWidth
    let win := descWindow (descAt L v) L.hiddenWidth L.hiddenHeight x y
    ((List.range win.length).map fun k =>
      if win.getD k (0, 0) = q ∧ hiddenActive L x y = true then
        (L.feedForwardWeights.getD (L.ffIndex v x y) []).getD k 0
      else 0).sum).sum

/-- Modelled from the spec: rebuilt reconstruction count at visible
position `q` of layer `v` — how many hidden units connect into `q`. -/
def reconCountAt (L : Layer) (v : Nat) (q : Nat × Nat) : Int :=
  ((List.range (L.hiddenWidth * L.hiddenHeight)).map fun u =>
    let x := u % L.hiddenWidth
    let y := u / L.hiddenWidth
    let win := descWindow (descAt L v) L.hiddenWidth L.hiddenHeight x y
    ((List.range win.length).map fun k =>
      if win.getD k (0, 0) = q then (1 : Int) else 0).sum).sum

/-- Modelled from the spec (§3): the reconstruction accumulators are
working state rebuilt every timestep from the freshly updated hidden
state, inputs and weights. -/
def rebuildRecon (L : Layer) : Layer :=
  { L with
    reconActivations := (List.range L.visibleLayerDescs.length).map fun v =>
      (List.range ((descAt L v).width.toNat * (descAt L v).height.toNat)).map fun p =>
        reconAt L v (p % (descAt L v).width.toNat, p / (descAt L v).width.toNat)
    reconCounts := (List.range L.visibleLayerDescs.length).map fun v =>
      (List.range ((descAt L v).width.toNat * (descAt L v).height.toNat)).map fun p =>
        reconCountAt L v (p % (descAt L v).width.toNat, p / (descAt L v).width.toNat) }

/-- Modelled from the spec (§4.3/§5): `Layer::forward` with an explicit
execution order of the per-chunk work items (the thread pool may run the
submitted items in any order; the call blocks until all complete). -/
def forwardWith (L : Layer) (inputs : List (List Nat)) (alpha gamma : Int)
    (order : List Nat) : Layer :=
  let snap := forwardSnap L inputs alpha gamma
  rebuildRecon (order.foldl (applyForwardChunk snap) snap)

/-- Modelled from the spec (§4.3): `Layer::forward`, with the canonical
submission order (one work item per hidden chunk). -/
def Layer.forward (L : Layer) (inputs : List (List Nat)) (alpha gamma : Int) : Layer :=
  forwardWith L inputs alpha gamma (List.range (numHiddenChunks L))

/-! Backward / prediction pass. -/

/-- Width of the chunk grid of a visible layer. -/
def visChunksX (d : VisibleLayerDesc) : Nat := d.width.toNat / d.chunkSize.toNat

/-- Number of candidate units per visible chunk. -/
def visCandCount (d : VisibleLayerDesc) : Nat := d.chunkSize.toNat * d.chunkSize.toNat

/-- Visible position of candidate unit `w` of visible chunk `c`. -/
def visCandPos (d : VisibleLayerDesc) (c w : Nat) : Nat × Nat :=
  ((c % visChunksX d) * d.chunkSize.toNat + w % d.chunkSize.toNat,
   (c / visChunksX d) * d.chunkSize.toNat + w / d.chunkSize.toNat)

/-- Modelled from the spec: whether feedback source `f` marks hidden unit
`(x, y)` active. -/
def feedBackActive (L : Layer) (f x y : Nat) : Bool :=
  decide ((L.feedBack.getD f []).getD (x / L.chunkSize + (y / L.chunkSize) * hiddenChunksX L) 0
    = x % L.chunkSize + (y % L.chunkSize) * L.chunkSize)

/-- Modelled from the spec (§4.4): prediction activation of candidate `w`
of visible chunk `c` of layer `v` — the hidden representation through the
feed-forward weights in the generative direction plus every feedback
source through its own prediction weight store. -/
def predActivation (L : Layer) (v c w : Nat) : Int :=
  let d := descAt L v
  let q := visCandPos d c w
  ((List.range (L.hiddenWidth * L.hiddenHeight)).map fun u =>
    let x := u % L.hiddenWidth
    let y := u / L.hiddenWidth
    let win := descWindow d L.hiddenWidth L.hiddenHeight x y
    ((List.range win.length).map fun k =>
      if win.getD k (0, 0) = q then
        (if hiddenActive L x y then
          (L.feedForwardWeights.getD (L.ffIndex v x y) []).getD k 0
         else 0)
        + ((List.range L.feedBack.length).map fun f =>
            if feedBackActive L f x y then
              ((L.predictionWeights.getD f []).getD (L.ffIndex v x y) []).getD k 0
            else 0).sum
      else 0).sum).sum

/-- Modelled from the spec (§4.4): the predicted winner of visible chunk
`c` of layer `v` (same maximal-activation, lowest-index tie-break rule). -/
def predWinner (L : Layer) (v c : Nat) : Nat :=
  argmaxFirst ((List.range (visCandCount (descAt L v))).map (predActivation L v c))

/-- Modelled from the spec (§4.4): updated prediction weight component
`k` of hidden unit `(x, y)`, feedback source `f`, visible layer `v` —
moved toward the actual input (rate `beta`). -/
def predUpdatedAt (L : Layer) (f v x y k : Nat) : Int :=
  let win := descWindow (descAt L v) L.hiddenWidth L.hiddenHeight x y
  let old := ((L.predictionWeights.getD f []).getD (L.ffIndex v x y) []).getD k 0
  let target : Int := if inputActive L v (win.getD k (0, 0)) then 1 else 0
  old + L.beta * (target - old)

/-- Prediction weight-store writes of the prediction work item of
`(visible layer, visible chunk)` `vi`: for every feedback source and
every hidden unit, exactly the weight components addressing visible
units inside chunk `vi.2` (the item's exclusively owned slice). -/
def predWrites (L : Layer) (vi : Nat × Nat) : List ((Nat × Nat × Nat) × Int) :=
  (List.range L.feedBack.length).flatMap fun f =>
    (List.range (L.hiddenWidth * L.hiddenHeight)).flatMap fun u =>
      (List.range (descWindow (descAt L vi.1) L.hiddenWidth L.hiddenHeight
          (u % L.hiddenWidth) (u / L.hiddenWidth)).length).filterMap fun k =>
        if visChunkOf (descAt L vi.1)
            ((descWindow (descAt L vi.1) L.hiddenWidth L.hiddenHeight
              (u % L.hiddenWidth) (u / L.hiddenWidth)).getD k (0, 0)) = vi.2 then
          some ((f, L.ffIndex vi.1 (u % L.hiddenWidth) (u / L.hiddenWidth), k),
            predUpdatedAt L f vi.1 (u % L.hiddenWidth) (u / L.hiddenWidth) k)
        else none

/-- Modelled from the spec (§4.4/§4.5): the prediction work item of
`(visible layer, visible chunk)` `vi` — writes the chunk's predicted
winner and the prediction weight components it owns, computed from the
pre-batch snapshot `snap`. -/
def applyPredictionItem (snap : Layer) (s : Layer) (vi : Nat × Nat) : Layer :=
  { s with
    predictions := set2 s.predictions vi.1 vi.2 (predWinner snap vi.1 vi.2)
    predictionWeights := setMany3 s.predictionWeights (predWrites snap vi) }

/-- Modelled from the spec (§4.4): the canonical prediction work item
batch — one item per (visible layer, visible chunk) pair, visible layers
with `predict = false` skipped entirely. -/
def backItems (L : Layer) : List (Nat × Nat) :=
  (List.range L.visibleLayerDescs.length).flatMap fun v =>
    if (descAt L v).predict then
      (List.range (numVisChunks (descAt L v))).map fun c => (v, c)
    else []

/-- Modelled from the spec (§4.4/§5): the sequential pre-batch phase of
`backward` — feedback is double-buffered into `*Prev` and the new
feedback and learning rate stored, before any chunk work item runs. -/
def backwardSnap (L : Layer) (fb : List (List Nat)) (beta : Int) : Layer :=
  { L with
    feedBackPrev := L.feedBack
    feedBack := fb
    predictionActivationsPrev := L.predictionActivations
    beta := beta }

/-- Modelled from the spec: the prediction accumulators of predicted
visible layers are rebuilt each backward step; layers with
`predict = false` are skipped (their rows kept untouched). -/
def rebuildPredAcc (L : Layer) : Layer :=
  { L with
    predictionActivations := (List.range L.visibleLayerDescs.length).map fun v =>
      if (descAt L v).predict then
        (List.range ((descAt L v).width.toNat * (descAt L v).height.toNat)).map fun p =>
          predActivation L v
            (visChunkOf (descAt L v) (p % (descAt L v).width.toNat, p / (descAt L v).width.toNat))
            (visUnitInChunk (descAt L v) (p % (descAt L v).width.toNat, p / (descAt L v).width.toNat))
      else L.predictionActivations.getD v []
    predictionCounts := (List.range L.visibleLayerDescs.length).map fun v =>
      if (descAt L v).predict then
        (List.range ((descAt L v).width.toNat * (descAt L v).height.toNat)).map fun p =>
          reconCountAt L v (p % (descAt L v).width.toNat, p / (descAt L v).width.toNat)
      else L.predictionCounts.getD v [] }

/-- Modelled from the spec (§4.4/§5): `Layer::backward` with an explicit
execution order of the per-chunk prediction work items. -/
def backwardWith (L : Layer) (fb : List (List Nat)) (beta : Int)
    (order : List (Nat × Nat)) : Layer :=
  let snap := backwardSnap L fb beta
  rebuildPredAcc (order.foldl (applyPredictionItem snap) snap)

/-- Modelled from the spec (§4.4): `Layer::backward`, with the canonical
submission order. -/
def Layer.backward (L : Layer) (fb : List (List Nat)) (beta : Int) : Layer :=
  backwardWith L fb beta (backItems L)

/-! Exclusive per-chunk ownership (spec §4.5/§5): the flat store
addresses written by distinct work items are distinct, hence execution
order cannot matter. -/

theorem chunkGeom (L : Layer) (c : Nat) (hc : c < numHiddenChunks L) :
    0 < L.chunkSize ∧ 0 < hiddenChunksX L := by
  unfold numHiddenChunks at hc
  have hx : 0 < hiddenChunksX L := by
    rcases Nat.eq_zero_or_pos (hiddenChunksX L) with h | h
    · rw [h] at hc
      simp at hc
    · exact h
  refine ⟨?_, hx⟩
  rcases Nat.eq_zero_or_pos L.chunkSize with h | h
  · unfold hiddenChunksX at hx
    rw [h] at hx
    simp at hx
  · exact h

theorem chunkWinner_lt (L : Layer) (c : Nat) (hcs : 0 < L.chunkSize) :
    chunkWinner L c < L.chunkSize * L.chunkSize := by
  have hlen : (chunkActs L c).length = L.chunkSize * L.chunkSize := by
    simp [chunkActs]
  have h := argmaxFirst_lt_length (chunkActs L c)
    (by rw [hlen]; exact Nat.mul_pos hcs hcs)
  rw [hlen] at h
  exact h

theorem chunkUnitX_lt (L : Layer) (c w : Nat) (hc : c < numHiddenChunks L) :
    chunkUnitX L c w < L.hiddenWidth := by
  obtain ⟨hcs, hx⟩ := chunkGeom L c hc
  unfold chunkUnitX
  have h1 : c % hiddenChunksX L < hiddenChunksX L := Nat.mod_lt _ hx
  have h2 : w % L.chunkSize < L.chunkSize := Nat.mod_lt _ hcs
  have h3 : hiddenChunksX L * L.chunkSize ≤ L.hiddenWidth := by
    unfold hiddenChunksX
    exact Nat.div_mul_le_self _ _
  have h4 : (c % hiddenChunksX L) * L.chunkSize + w % L.chunkSize
      < hiddenChunksX L * L.chunkSize := by
    calc (c % hiddenChunksX L) * L.chunkSize + w % L.chunkSize
        < (c % hiddenChunksX L) * L.chunkSize + L.chunkSize := by omega
      _ = (c % hiddenChunksX L + 1) * L.chunkSize := by ring
      _ ≤ hiddenChunksX L * L.chunkSize := Nat.mul_le_mul_right _ (by omega)
  omega

theorem chunkUnitX_div (L : Layer) (c w : Nat) (hcs : 0 < L.chunkSize) :
    chunkUnitX L c w / L.chunkSize = c % hiddenChunksX L := by
  unfold chunkUnitX
  rw [Nat.mul_comm, Nat.mul_add_div hcs,
    Nat.div_eq_of_lt (Nat.mod_lt _ hcs), Nat.add_zero]

theorem chunkUnitY_div (L : Layer) (c w : Nat) (hcs : 0 < L.chunkSize)
    (hw : w < L.chunkSize * L.chunkSize) :
    chunkUnitY L c w / L.chunkSize = c / hiddenChunksX L := by
  unfold chunkUnitY
  have hdiv : w / L.chunkSize < L.chunkSize := Nat.div_lt_of_lt_mul (by rwa [Nat.mul_comm] at hw)
  rw [Nat.mul_comm, Nat.mul_add_div hcs, Nat.div_eq_of_lt hdiv, Nat.add_zero]

theorem chunk_inj (L : Layer) (c1 c2 w1 w2 : Nat)
    (h1 : c1 < numHiddenChunks L) (_h2 : c2 < numHiddenChunks L)
    (hw1 : w1 < L.chunkSize * L.chunkSize) (hw2 : w2 < L.chunkSize * L.chunkSize)
    (hx : chunkUnitX L c1 w1 = chunkUnitX L c2 w2)
    (hy : chunkUnitY L c1 w1 = chunkUnitY L c2 w2) : c1 = c2 := by
  obtain ⟨hcs, hcx⟩ := chunkGeom L c1 h1
  have e1 : c1 % hiddenChunksX L = c2 % hiddenChunksX L := by
    rw [← chunkUnitX_div L c1 w1 hcs, hx, chunkUnitX_div L c2 w2 hcs]
  have e2 : c1 / hiddenChunksX L = c2 / hiddenChunksX L := by
    rw [← chunkUnitY_div L c1 w1 hcs hw1, hy, chunkUnitY_div L c2 w2 hcs hw2]
  rw [← Nat.div_add_mod c1 (hiddenChunksX L), ← Nat.div_add_mod c2 (hiddenChunksX L), e1, e2]

theorem ffIndex_inj (L : Layer) (v1 x1 y1 v2 x2 y2 : Nat)
    (hv1 : v1 < L.visibleLayerDescs.length) (hv2 : v2 < L.visibleLayerDescs.length)
    (hx1 : x1 < L.hiddenWidth) (hx2 : x2 < L.hiddenWidth)
    (h : L.ffIndex v1 x1 y1 = L.ffIndex v2 x2 y2) : v1 = v2 ∧ x1 = x2 ∧ y1 = y2 := by
  have hnv : 0 < L.visibleLayerDescs.length := by omega
  have hW : 0 < L.hiddenWidth := by omega
  unfold Layer.ffIndex at h
  have ev : v1 = v2 := by
    have h2 := congrArg (fun t => t % L.visibleLayerDescs.length) h
    simpa [Nat.add_mul_mod_self_left, Nat.mod_eq_of_lt hv1, Nat.mod_eq_of_lt hv2] using h2
  have et : x1 + y1 * L.hiddenWidth = x2 + y2 * L.hiddenWidth := by
    have h2 := congrArg (fun t => t / L.visibleLayerDescs.length) h
    simpa [Nat.add_mul_div_left _ _ hnv, Nat.div_eq_of_lt hv1, Nat.div_eq_of_lt hv2] using h2
  have ex : x1 = x2 := by
    have h2 := congrArg (fun t => t % L.hiddenWidth) et
    simpa [Nat.add_mul_mod_self_left, Nat.mod_eq_of_lt hx1, Nat.mod_eq_of_lt hx2] using h2
  have ey : y1 = y2 := by
    have h2 := congrArg (fun t => t / L.hiddenWidth) et
    rw [Nat.mul_comm y1 _, Nat.mul_comm y2 _] at h2
    simpa [Nat.add_mul_div_left _ _ hW, Nat.div_eq_of_lt hx1, Nat.div_eq_of_lt hx2] using h2
  exact ⟨ev, ex, ey⟩

theorem ffWrites_disjoint (snap : Layer) (c1 c2 : Nat)
    (h1 : c1 < numHiddenChunks snap) (h2 : c2 < numHiddenChunks snap) (hne : c1 ≠ c2) :
    ∀ w1 ∈ ffWrites snap c1, ∀ w2 ∈ ffWrites snap c2, w1.1 ≠ w2.1 := by
  intro w1 hw1 w2 hw2 heq
  obtain ⟨v1, hv1m, he1⟩ := List.mem_map.mp hw1
  obtain ⟨v2, hv2m, he2⟩ := List.mem_map.mp hw2
  rw [← he1, ← he2] at heq
  simp only at heq
  obtain ⟨hcs, -⟩ := chunkGeom snap c1 h1
  have hb1 := chunkWinner_lt snap c1 hcs
  have hb2 := chunkWinner_lt snap c2 hcs
  obtain ⟨-, hx, hy⟩ := ffIndex_inj snap v1 _ _ v2 _ _
    (List.mem_range.mp hv1m) (List.mem_range.mp hv2m)
    (chunkUnitX_lt snap c1 _ h1) (chunkUnitX_lt snap c2 _ h2) heq
  exact hne (chunk_inj snap c1 c2 _ _ h1 h2 hb1 hb2 hx hy)

theorem applyForwardChunk_comm (snap s : Layer) (c1 c2 : Nat)
    (h1 : c1 < numHiddenChunks snap) (h2 : c2 < numHiddenChunks snap) :
    applyForwardChunk snap (applyForwardChunk snap s c1) c2
      = applyForwardChunk snap (applyForwardChunk snap s c2) c1 := by
  by_cases hc : c1 = c2
  · rw [hc]
  · simp only [applyForwardChunk]
    rw [List.set_comm _ _ _ hc, setMany_comm _ _ _ (ffWrites_disjoint snap c1 c2 h1 h2 hc)]

/-- Forward is invariant to the execution order of its chunk work items. -/
theorem forwardWith_perm (L : Layer) (inputs : List (List Nat)) (alpha gamma : Int)
    (order : List Nat) (hp : order.Perm (List.range (numHiddenChunks L))) :
    forwardWith L inputs alpha gamma order = L.forward inputs alpha gamma := by
  unfold Layer.forward forwardWith
  have hmem : ∀ c ∈ order, c < numHiddenChunks L := fun c hc =>
    List.mem_range.mp (hp.subset hc)
  have hdims : numHiddenChunks (forwardSnap L inputs alpha gamma) = numHiddenChunks L := rfl
  exact congrArg rebuildRecon (hp.foldl_eq' (fun x hx y hy z =>
    applyForwardChunk_comm (forwardSnap L inputs alpha gamma) z x y
      (by rw [hdims]; exact hmem x hx) (by rw [hdims]; exact hmem y hy)) _)

theorem predWrites_mem (L : Layer) (vi : Nat × Nat) (w : (Nat × Nat × Nat) × Int)
    (hw : w ∈ predWrites L vi) :
    ∃ f u k, u < L.hiddenWidth * L.hiddenHeight ∧
      w.1 = (f, L.ffIndex vi.1 (u % L.hiddenWidth) (u / L.hiddenWidth), k) ∧
      visChunkOf (descAt L vi.1)
        ((descWindow (descAt L vi.1) L.hiddenWidth L.hiddenHeight
          (u % L.hiddenWidth) (u / L.hiddenWidth)).getD k (0, 0)) = vi.2 := by
  unfold predWrites at hw
  rw [List.mem_flatMap] at hw
  obtain ⟨f, hf, hw⟩ := hw
  rw [List.mem_flatMap] at hw
  obtain ⟨u, hu, hw⟩ := hw
  rw [List.mem_filterMap] at hw
  obtain ⟨k, hk, he⟩ := hw
  by_cases hg : visChunkOf (descAt L vi.1)
      ((descWindow (descAt L vi.1) L.hiddenWidth L.hiddenHeight
        (u % L.hiddenWidth) (u / L.hiddenWidth)).getD k (0, 0)) = vi.2
  · rw [if_pos hg] at he
    refine ⟨f, u, k, List.mem_range.mp hu, ?_, hg⟩
    have he2 := Option.some.inj he
    rw [← he2]
  · rw [if_neg hg] at he
    exact absurd he (by simp)

theorem predWrites_disjoint (snap : Layer) (vi1 vi2 : Nat × Nat) (hne : vi1 ≠ vi2)
    (hv1 : vi1.1 < snap.visibleLayerDescs.length)
    (hv2 : vi2.1 < snap.visibleLayerDescs.length) :
    ∀ w1 ∈ predWrites snap vi1, ∀ w2 ∈ predWrites snap vi2, w1.1 ≠ w2.1 := by
  intro w1 hw1 w2 hw2 heq
  obtain ⟨f1, u1, k1, hu1, he1, hg1⟩ := predWrites_mem snap vi1 w1 hw1
  obtain ⟨f2, u2, k2, hu2, he2, hg2⟩ := predWrites_mem snap vi2 w2 hw2
  rw [he1, he2] at heq
  rw [Prod.mk.injEq, Prod.mk.injEq] at heq
  have hW : 0 < snap.hiddenWidth := by
    rcases Nat.eq_zero_or_pos snap.hiddenWidth with h | h
    · rw [h] at hu1
      simp at hu1
    · exact h
  obtain ⟨hv, hx, hy⟩ := ffIndex_inj snap vi1.1 _ _ vi2.1 _ _ hv1 hv2
    (Nat.mod_lt _ hW) (Nat.mod_lt _ hW) heq.2.1
  apply hne
  rw [Prod.ext_iff]
  refine ⟨hv, ?_⟩
  rw [← hg1, ← hg2, hv, hx, hy, heq.2.2]

theorem applyPredictionItem_comm (snap s : Layer) (vi1 vi2 : Nat × Nat)
    (hv1 : vi1.1 < snap.visibleLayerDescs.length)
    (hv2 : vi2.1 < snap.visibleLayerDescs.length) :
    applyPredictionItem snap (applyPredictionItem snap s vi1) vi2
      = applyPredictionItem snap (applyPredictionItem snap s vi2) vi1 := by
  by_cases hc : vi1 = vi2
  · rw [hc]
  · simp only [applyPredictionItem]
    rw [set2_comm _ _ _ _ _ _ _ (fun hcc => hc (by
        rw [Prod.ext_iff] at hcc ⊢
        exact hcc)),
      setMany3_comm _ _ _ (predWrites_disjoint snap vi1 vi2 hc hv1 hv2)]

theorem backItems_mem (L : Layer) (vi : Nat × Nat) (h : vi ∈ backItems L) :
    vi.1 < L.visibleLayerDescs.length ∧ (descAt L vi.1).predict = true
      ∧ vi.2 < numVisChunks (descAt L vi.1) := by
  unfold backItems at h
  rw [List.mem_flatMap] at h
  obtain ⟨v, hv, h⟩ := h
  by_cases hp : (descAt L v).predict
  · rw [if_pos hp] at h
    obtain ⟨c, hc, he⟩ := List.mem_map.mp h
    rw [← he]
    exact ⟨List.mem_range.mp hv, hp, List.mem_range.mp hc⟩
  · rw [if_neg hp] at h
    exact absurd h (by simp)

/-- Backward is invariant to the execution order of its prediction work
items. -/
theorem backwardWith_perm (L : Layer) (fb : List (List Nat)) (beta : Int)
    (order : List (Nat × Nat)) (hp : order.Perm (backItems L)) :
    backwardWith L fb beta order = L.backward fb beta := by
  unfold Layer.backward backwardWith
  have hmem : ∀ vi ∈ order, vi.1 < L.visibleLayerDescs.length := fun vi h =>
    (backItems_mem L vi (hp.subset h)).1
  exact congrArg rebuildPredAcc (hp.foldl_eq' (fun x hx y hy z =>
    applyPredictionItem_comm (backwardSnap L fb beta) z x y (hmem x hx) (hmem y hy)) _)

/-! N-step runs and schedule invariance. -/

/-- Creation-time configuration of a layer — the fields `forward` and
`backward` never modify. -/
def dims (L : Layer) : Nat × Nat × Nat × List VisibleLayerDesc :=
  (L.hiddenWidth, L.hiddenHeight, L.chunkSize, L.visibleLayerDescs)

theorem dims_foldF (snap : Layer) (order : List Nat) (s : Layer) :
    dims (order.foldl (applyForwardChunk snap) s) = dims s := by
  induction order generalizing s with
  | nil => rfl
  | cons c order ih =>
    rw [List.foldl_cons]
    exact (ih _).trans rfl

theorem dims_foldB (snap : Layer) (order : List (Nat × Nat)) (s : Layer) :
    dims (order.foldl (applyPredictionItem snap) s) = dims s := by
  induction order generalizing s with
  | nil => rfl
  | cons vi order ih =>
    rw [List.foldl_cons]
    exact (ih _).trans rfl

theorem dims_forwardWith (L : Layer) (inputs : List (List Nat)) (alpha gamma : Int)
    (order : List Nat) : dims (forwardWith L inputs alpha gamma order) = dims L :=
  (dims_foldF (forwardSnap L inputs alpha gamma) order (forwardSnap L inputs alpha gamma)).trans rfl

theorem dims_backwardWith (L : Layer) (fb : List (List Nat)) (beta : Int)
    (order : List (Nat × Nat)) : dims (backwardWith L fb beta order) = dims L :=
  (dims_foldB (backwardSnap L fb beta) order (backwardSnap L fb beta)).trans rfl

theorem numHiddenChunks_eq_of_dims {L1 L2 : Layer} (h : dims L1 = dims L2) :
    numHiddenChunks L1 = numHiddenChunks L2 := by
  have hW : L1.hiddenWidth = L2.hiddenWidth := congrArg (fun t => t.1) h
  have hH : L1.hiddenHeight = L2.hiddenHeight := congrArg (fun t => t.2.1) h
  have hcs : L1.chunkSize = L2.chunkSize := congrArg (fun t => t.2.2.1) h
  unfold numHiddenChunks hiddenChunksX hiddenChunksY
  rw [hW, hH, hcs]

theorem backItems_eq_of_dims {L1 L2 : Layer} (h : dims L1 = dims L2) :
    backItems L1 = backItems L2 := by
  have hd : L1.visibleLayerDescs = L2.visibleLayerDescs := congrArg (fun t => t.2.2.2) h
  unfold backItems descAt
  rw [hd]

/-- One timestep — `forward` on the step's inputs then `backward` on its
feedback — with explicit work-item execution orders. -/
def stepWith (alpha beta gamma : Int) (L : Layer)
    (io : List (List Nat) × List (List Nat)) (sched : List Nat × List (Nat × Nat)) : Layer :=
  backwardWith (forwardWith L io.1 alpha gamma sched.1) io.2 beta sched.2

/-- An N-step run with explicit per-step work-item execution orders. -/
def runWith (alpha beta gamma : Int) (L : Layer)
    (ios : List (List (List Nat) × List (List Nat)))
    (scheds : List (List Nat × List (Nat × Nat))) : Layer :=
  (ios.zip scheds).foldl (fun s p => stepWith alpha beta gamma s p.1 p.2) L

/-- An N-step run with the canonical submission orders. -/
def Layer.run (L : Layer) (ios : List (List (List Nat) × List (List Nat)))
    (alpha beta gamma : Int) : Layer :=
  ios.foldl (fun s io => (s.forward io.1 alpha gamma).backward io.2 beta) L

theorem runWith_eq_run (alpha beta gamma : Int) (L : Layer)
    (ios : List (List (List Nat) × List (List Nat)))
    (scheds : List (List Nat × List (Nat × Nat)))
    (hlen : scheds.length = ios.length)
    (hs : ∀ sch ∈ scheds, sch.1.Perm (List.range (numHiddenChunks L))
      ∧ sch.2.Perm (backItems L)) :
    runWith alpha beta gamma L ios scheds = L.run ios alpha beta gamma := by
  induction ios generalizing L scheds with
  | nil =>
    unfold runWith Layer.run
    simp
  | cons io ios ih =>
    match scheds with
    | [] => exact absurd hlen (by simp)
    | sch :: scheds =>
      have hdf := dims_forwardWith L io.1 alpha gamma sch.1
      have hstep : stepWith alpha beta gamma L io sch
          = (L.forward io.1 alpha gamma).backward io.2 beta := by
        unfold stepWith
        rw [forwardWith_perm L io.1 alpha gamma sch.1 (hs sch (by simp)).1]
        apply backwardWith_perm
        have hbi : backItems (L.forward io.1 alpha gamma) = backItems L :=
          backItems_eq_of_dims (dims_forwardWith L io.1 alpha gamma _)
        rw [hbi]
        exact (hs sch (by simp)).2
      have hdstep : dims (stepWith alpha beta gamma L io sch) = dims L := by
        unfold stepWith
        exact (dims_backwardWith _ io.2 beta sch.2).trans (dims_forwardWith L io.1 alpha gamma sch.1)
      unfold runWith Layer.run
      rw [List.zip_cons_cons, List.foldl_cons, List.foldl_cons]
      have hrec := ih (stepWith alpha beta gamma L io sch) scheds
        (by simpa using hlen)
        (by
          intro sch' hsch'
          have h := hs sch' (List.mem_cons_of_mem _ hsch')
          constructor
          · rw [numHiddenChunks_eq_of_dims hdstep]
            exact h.1
          · rw [backItems_eq_of_dims hdstep]
            exact h.2)
      unfold runWith Layer.run at hrec
      rw [hrec, hstep]

/-- C1: determinism and schedule independence.  `create` and the N-step
run are pure functions of their arguments (so two runs from the same
seed on identical inputs are definitionally byte-identical), and this
theorem settles the substantive part: the result of an N-step
`forward`/`backward` run — hidden states, feed-forward weights,
prediction weights and predictions included, since the whole layer state
is equal — is invariant to the per-step execution order of the chunk
work items, hence to thread count and scheduling order, as long as each
step executes every work item exactly once (any permutation of the
canonical batch). -/
theorem run_schedule_invariant (L : Layer)
    (ios : List (List (List Nat) × List (List Nat))) (alpha beta gamma : Int)
    (s1 s2 : List (List Nat × List (Nat × Nat)))
    (h1len : s1.length = ios.length) (h2len : s2.length = ios.length)
    (h1 : ∀ sch ∈ s1, sch.1.Perm (List.range (numHiddenChunks L))
      ∧ sch.2.Perm (backItems L))
    (h2 : ∀ sch ∈ s2, sch.1.Perm (List.range (numHiddenChunks L))
      ∧ sch.2.Perm (backItems L)) :
    runWith alpha beta gamma L ios s1 = runWith alpha beta gamma L ios s2 := by
  rw [runWith_eq_run alpha beta gamma L ios s1 h1len h1,
    runWith_eq_run alpha beta gamma L ios s2 h2len h2]

/-! Concrete instances used by the witnesses. -/

/-- A small concrete layer: 2×1 hidden grid with chunk size 1 (two hidden
chunks), one predicted 2×1 visible layer (two visible chunks), one
feedback layer. -/
def sampleLayer : Layer := {
  hiddenWidth := 2
  hiddenHeight := 1
  chunkSize := 1
  hiddenStates := [0, 0]
  feedForwardWeights := [[0, 0], [0, 0]]
  predictionWeights := [[[0, 0], [0, 0]]]
  reconActivations := [[0, 0]]
  reconCounts := [[0, 0]]
  reconActivationsPrev := [[0, 0]]
  reconCountsPrev := [[0, 0]]
  visibleLayerDescs := [{ width := 2, height := 1, chunkSize := 1, radius := 1, predict := true }]
  predictions := [[0, 0]]
  predictionActivations := [[0, 0]]
  predictionCounts := [[0, 0]]
  predictionActivationsPrev := [[0, 0]]
  inputs := [[0, 0]]
  inputsPrev := [[0, 0]]
  feedBack := [[0, 0]]
  feedBackPrev := [[0, 0]]
  alpha := 0
  beta := 0
  gamma := 0 }

/-- One step of concrete inputs and feedback for `sampleLayer`. -/
def sampleIos : List (List (List Nat) × List (List Nat)) := [([[0, 0]], [[0, 0]])]

/-- The canonical schedule for `sampleLayer`. -/
def sampleSched1 : List (List Nat × List (Nat × Nat)) := [([0, 1], [(0, 0), (0, 1)])]

/-- A permuted schedule for `sampleLayer`. -/
def sampleSched2 : List (List Nat × List (Nat × Nat)) := [([1, 0], [(0, 1), (0, 0)])]

/-- Witness for C1 at a concrete layer, input sequence and pair of
schedules. -/
theorem run_schedule_invariant_witness :
    sampleSched1.length = sampleIos.length
    ∧ sampleSched2.length = sampleIos.length
    ∧ (∀ sch ∈ sampleSched1, sch.1.Perm (List.range (numHiddenChunks sampleLayer))
        ∧ sch.2.Perm (backItems sampleLayer))
    ∧ (∀ sch ∈ sampleSched2, sch.1.Perm (List.range (numHiddenChunks sampleLayer))
        ∧ sch.2.Perm (backItems sampleLayer))
    ∧ runWith 1 1 1 sampleLayer sampleIos sampleSched1
        = runWith 1 1 1 sampleLayer sampleIos sampleSched2 :=
  ⟨rfl, rfl, by decide, by decide,
    run_schedule_invariant sampleLayer sampleIos 1 1 1 sampleSched1 sampleSched2
      rfl rfl (by decide) (by decide)⟩

/-! Pointwise reading of written buffers. -/

theorem setMany_length (l : List α) (ws : List (Nat × α)) :
    (setMany l ws).length = l.length := by
  induction ws generalizing l with
  | nil => rfl
  | cons w ws ih => rw [setMany_cons, ih, List.length_set]

theorem set2_length (l : List (List α)) (i j : Nat) (a : α) :
    (set2 l i j a).length = l.length := by
  induction l generalizing i with
  | nil => rfl
  | cons r rs ih =>
    match i with
    | 0 => rfl
    | i + 1 => simp only [set2, List.length_cons, ih]

theorem set2_getElem?_self (l : List (List α)) (i j : Nat) (a : α) :
    (set2 l i j a)[i]? = (l[i]?).map fun r => r.set j a := by
  induction l generalizing i with
  | nil => simp [set2]
  | cons r rs ih =>
    match i with
    | 0 => simp [set2]
    | i + 1 => simpa [set2] using ih i

theorem set2_getElem?_ne (l : List (List α)) (i j i' : Nat) (a : α) (h : i' ≠ i) :
    (set2 l i j a)[i']? = l[i']? := by
  induction l generalizing i i' with
  | nil => simp [set2]
  | cons r rs ih =>
    match i, i' with
    | 0, 0 => exact absurd rfl h
    | 0, i' + 1 => simp [set2]
    | i + 1, 0 => simp [set2]
    | i + 1, i' + 1 =>
      simp only [set2, List.getElem?_cons_succ]
      exact ih i i' (fun hc => h (by rw [hc]))

theorem set3_getElem?_self (l : List (List (List α))) (i j k : Nat) (a : α) :
    (set3 l i j k a)[i]? = (l[i]?).map fun r => set2 r j k a := by
  induction l generalizing i with
  | nil => simp [set3]
  | cons r rs ih =>
    match i with
    | 0 => simp [set3]
    | i + 1 => simpa [set3] using ih i

theorem set3_getElem?_ne (l : List (List (List α))) (i j k i' : Nat) (a : α) (h : i' ≠ i) :
    (set3 l i j k a)[i']? = l[i']? := by
  induction l generalizing i i' with
  | nil => simp [set3]
  | cons r rs ih =>
    match i, i' with
    | 0, 0 => exact absurd rfl h
    | 0, i' + 1 => simp [set3]
    | i + 1, 0 => simp [set3]
    | i + 1, i' + 1 =>
      simp only [set3, List.getElem?_cons_succ]
      exact ih i i' (fun hc => h (by rw [hc]))

/-- Row `v` of a two-level nested buffer (defaulted empty out of range). -/
def row2 (l : List (List α)) (v : Nat) : List α := l.getD v []

theorem row2_set2_ne (l : List (List α)) (i j v : Nat) (a : α) (h : v ≠ i) :
    row2 (set2 l i j a) v = row2 l v := by
  unfold row2
  rw [List.getD_eq_getElem?_getD, List.getD_eq_getElem?_getD, set2_getElem?_ne _ _ _ _ _ h]

theorem row2_set2_self (l : List (List α)) (i j : Nat) (a : α) :
    row2 (set2 l i j a) i = (row2 l i).set j a := by
  unfold row2
  rw [List.getD_eq_getElem?_getD, List.getD_eq_getElem?_getD, set2_getElem?_self]
  cases h : l[i]? with
  | none => rfl
  | some r => rfl

/-! Plane separation of the forward batch: the fold of the work items
acts on `hiddenStates` as independent single-cell writes, leaves all
other buffers untouched, and acts on the weight store only through
`ffWrites`. -/

theorem foldF_untouched (snap : Layer) (order : List Nat) (s : Layer) :
    (order.foldl (applyForwardChunk snap) s).inputs = s.inputs
    ∧ (order.foldl (applyForwardChunk snap) s).inputsPrev = s.inputsPrev
    ∧ (order.foldl (applyForwardChunk snap) s).reconActivationsPrev = s.reconActivationsPrev
    ∧ (order.foldl (applyForwardChunk snap) s).reconCountsPrev = s.reconCountsPrev
    ∧ (order.foldl (applyForwardChunk snap) s).predictions = s.predictions
    ∧ (order.foldl (applyForwardChunk snap) s).predictionWeights = s.predictionWeights
    ∧ (order.foldl (applyForwardChunk snap) s).predictionActivations = s.predictionActivations
    ∧ (order.foldl (applyForwardChunk snap) s).predictionCounts = s.predictionCounts
    ∧ (order.foldl (applyForwardChunk snap) s).predictionActivationsPrev
        = s.predictionActivationsPrev
    ∧ (order.foldl (applyForwardChunk snap) s).feedBack = s.feedBack
    ∧ (order.foldl (applyForwardChunk snap) s).feedBackPrev = s.feedBackPrev := by
  induction order generalizing s with
  | nil => exact ⟨rfl, rfl, rfl, rfl, rfl, rfl, rfl, rfl, rfl, rfl, rfl⟩
  | cons c order ih =>
    rw [List.foldl_cons]
    exact ih _

theorem foldB_untouched (snap : Layer) (order : List (Nat × Nat)) (s : Layer) :
    (order.foldl (applyPredictionItem snap) s).hiddenStates = s.hiddenStates
    ∧ (order.foldl (applyPredictionItem snap) s).feedForwardWeights = s.feedForwardWeights
    ∧ (order.foldl (applyPredictionItem snap) s).inputs = s.inputs
    ∧ (order.foldl (applyPredictionItem snap) s).inputsPrev = s.inputsPrev
    ∧ (order.foldl (applyPredictionItem snap) s).feedBack = s.feedBack
    ∧ (order.foldl (applyPredictionItem snap) s).feedBackPrev = s.feedBackPrev
    ∧ (order.foldl (applyPredictionItem snap) s).reconActivations = s.reconActivations
    ∧ (order.foldl (applyPredictionItem snap) s).reconCounts = s.reconCounts
    ∧ (order.foldl (applyPredictionItem snap) s).reconActivationsPrev = s.reconActivationsPrev
    ∧ (order.foldl (applyPredictionItem snap) s).reconCountsPrev = s.reconCountsPrev
    ∧ (order.foldl (applyPredictionItem snap) s).predictionActivationsPrev
        = s.predictionActivationsPrev := by
  induction order generalizing s with
  | nil => exact ⟨rfl, rfl, rfl, rfl, rfl, rfl, rfl, rfl, rfl, rfl, rfl⟩
  | cons vi order ih =>
    rw [List.foldl_cons]
    exact ih _

theorem foldF_hiddenStates_length (snap : Layer) (order : List Nat) (s : Layer) :
    (order.foldl (applyForwardChunk snap) s).hiddenStates.length = s.hiddenStates.length := by
  induction order generalizing s with
  | nil => rfl
  | cons c order ih =>
    rw [List.foldl_cons]
    exact (ih _).trans (List.length_set ..)

theorem foldF_hiddenStates_unchanged_at (snap : Layer) (order : List Nat) (s : Layer)
    (c : Nat) (h : c ∉ order) :
    (order.foldl (applyForwardChunk snap) s).hiddenStates[c]? = s.hiddenStates[c]? := by
  induction order generalizing s with
  | nil => rfl
  | cons c' order ih =>
    rw [List.foldl_cons]
    have h1 : c ∉ order := fun hc => h (List.mem_cons_of_mem _ hc)
    have h2 : c ≠ c' := fun hc => h (hc ▸ List.mem_cons_self _ _)
    rw [ih _ h1]
    exact List.getElem?_set_ne (fun hc => h2 hc.symm)

theorem foldF_hiddenStates_at (snap : Layer) (order : List Nat) (s : Layer) (c : Nat)
    (hnd : order.Nodup) (hmem : c ∈ order) (hc : c < s.hiddenStates.length) :
    (order.foldl (applyForwardChunk snap) s).hiddenStates[c]? = some (chunkWinner snap c) := by
  induction order generalizing s with
  | nil => cases hmem
  | cons c' order ih =>
    rw [List.foldl_cons]
    by_cases hcc : c = c'
    · subst hcc
      have hnotin : c ∉ order := (List.nodup_cons.mp hnd).1
      rw [foldF_hiddenStates_unchanged_at snap order _ c hnotin]
      exact List.getElem?_set_self hc
    · exact ih _ ((List.nodup_cons.mp hnd).2)
        (List.mem_of_ne_of_mem hcc hmem)
        (by show c < (s.hiddenStates.set c' (chunkWinner snap c')).length
            rw [List.length_set]
            exact hc)

theorem foldF_hidden_entries (snap : Layer) (order : List Nat) (s : Layer) :
    ∀ e ∈ (order.foldl (applyForwardChunk snap) s).hiddenStates,
      e ∈ s.hiddenStates ∨ ∃ c ∈ order, e = chunkWinner snap c := by
  induction order generalizing s with
  | nil => exact fun e he => .inl he
  | cons c order ih =>
    intro e he
    rw [List.foldl_cons] at he
    rcases ih _ e he with h | h
    · rcases List.mem_or_eq_of_mem_set h with h2 | h2
      · exact .inl h2
      · exact .inr ⟨c, List.mem_cons_self _ _, h2⟩
    · obtain ⟨c', hc', he'⟩ := h
      exact .inr ⟨c', List.mem_cons_of_mem _ hc', he'⟩

/-! Plane separation of the backward batch. -/

theorem foldB_predictions_length (snap : Layer) (order : List (Nat × Nat)) (s : Layer) :
    (order.foldl (applyPredictionItem snap) s).predictions.length = s.predictions.length := by
  induction order generalizing s with
  | nil => rfl
  | cons vi order ih =>
    rw [List.foldl_cons]
    exact (ih _).trans (set2_length ..)

theorem foldB_pred_row_length (snap : Layer) (order : List (Nat × Nat)) (s : Layer) (v : Nat) :
    (row2 (order.foldl (applyPredictionItem snap) s).predictions v).length
      = (row2 s.predictions v).length := by
  induction order generalizing s with
  | nil => rfl
  | cons vi order ih =>
    rw [List.foldl_cons, ih _]
    show (row2 (set2 s.predictions vi.1 vi.2 _) v).length = _
    by_cases hv : v = vi.1
    · subst hv
      rw [row2_set2_self, List.length_set]
    · rw [row2_set2_ne _ _ _ _ _ hv]

theorem foldB_pred_row_entries (snap : Layer) (order : List (Nat × Nat)) (s : Layer) (v : Nat) :
    ∀ e ∈ row2 (order.foldl (applyPredictionItem snap) s).predictions v,
      e ∈ row2 s.predictions v ∨ ∃ vi ∈ order, vi.1 = v ∧ e = predWinner snap vi.1 vi.2 := by
  induction order generalizing s with
  | nil => exact fun e he => .inl he
  | cons vi order ih =>
    intro e he
    rw [List.foldl_cons] at he
    rcases ih _ e he with h | h
    · by_cases hv : v = vi.1
      · rw [show row2 (applyPredictionItem snap s vi).predictions v
            = (row2 s.predictions v).set vi.2 (predWinner snap vi.1 vi.2) from by
              rw [hv]
              exact row2_set2_self _ _ _ _] at h
        rcases List.mem_or_eq_of_mem_set h with h3 | h3
        · exact .inl h3
        · exact .inr ⟨vi, List.mem_cons_self _ _, hv.symm, h3⟩
      · rw [show row2 (applyPredictionItem snap s vi).predictions v
            = row2 s.predictions v from row2_set2_ne _ _ _ _ _ hv] at h
        exact .inl h
    · obtain ⟨vi', hvi', hv', he'⟩ := h
      exact .inr ⟨vi', List.mem_cons_of_mem _ hvi', hv', he'⟩

theorem foldB_pred_row_unchanged (snap : Layer) (order : List (Nat × Nat)) (s : Layer)
    (v : Nat) (h : ∀ vi ∈ order, vi.1 ≠ v) :
    row2 (order.foldl (applyPredictionItem snap) s).predictions v = row2 s.predictions v := by
  induction order generalizing s with
  | nil => rfl
  | cons vi order ih =>
    rw [List.foldl_cons, ih _ (fun vi' hvi' => h vi' (List.mem_cons_of_mem _ hvi'))]
    exact row2_set2_ne _ _ _ _ _ (fun hc => h vi (List.mem_cons_self _ _) hc.symm)

/-- Winner-take-all specification: `w` indexes a maximal element of the
activation list `acts`, and among all maximal elements it is the one of
lowest index. -/
def winnerSpec (acts : List Int) (w : Nat) : Prop :=
  w < acts.length
  ∧ (∀ j < acts.length, acts.getD j 0 ≤ acts.getD w 0)
  ∧ (∀ j < acts.length, acts.getD j 0 = acts.getD w 0 → w ≤ j)

/-- `sampleLayer` with a different pre-call hidden state (used to exhibit
that `forward` retains no copy of the previous hidden state). -/
def sampleLayerB : Layer := { sampleLayer with hiddenStates := [1, 1] }

/-- C6 counterexample: the `Layer` class has no previous-hidden-state
buffer (its only `*Prev` members are the recon accumulators, prediction
activations, inputs and feedback), so the pre-call hidden state survives
nowhere: two layers that differ only in their hidden states map to the
very same post-`forward` state, hence no buffer of the result can equal
"the hidden state from just before the call" for both. -/
theorem forward_no_hidden_prev_counterexample :
    sampleLayerB.hiddenStates ≠ sampleLayer.hiddenStates
    ∧ Layer.forward sampleLayerB [[0, 0]] 1 1 = Layer.forward sampleLayer [[0, 0]] 1 1 := by
  constructor
  · decide
  · decide

/-- C6 (amended): at the start of every `forward` call, before the
current buffers are overwritten and before any chunk work runs, the
previous *inputs* and the reconstruction accumulators are copied into
their `*Prev` buffers (so after the call each of those `*Prev` buffers
equals the corresponding buffer's pre-call value, and `inputs` holds the
new inputs); the layer has no previous-hidden-state buffer, so no such
snapshot exists for the hidden state. -/
theorem forward_prev_snapshot (L : Layer) (inputs : List (List Nat)) (alpha gamma : Int) :
    (L.forward inputs alpha gamma).inputsPrev = L.inputs
    ∧ (L.forward inputs alpha gamma).reconActivationsPrev = L.reconActivations
    ∧ (L.forward inputs alpha gamma).reconCountsPrev = L.reconCounts
    ∧ (L.forward inputs alpha gamma).inputs = inputs := by
  have h := foldF_untouched (forwardSnap L inputs alpha gamma)
    (List.range (numHiddenChunks L)) (forwardSnap L inputs alpha gamma)
  exact ⟨h.2.1, h.2.2.1, h.2.2.2.1, h.1⟩

/-- C4: in `forward`, every hidden chunk's new stored winner is the
candidate of maximal feed-forward activation over the chunk's
`chunkSize²` candidates, with ties broken by the lowest unit index. -/
theorem forward_winner_maximal (L : Layer) (inputs : List (List Nat)) (alpha gamma : Int)
    (c : Nat) (hc : c < numHiddenChunks L)
    (hlen : L.hiddenStates.length = numHiddenChunks L) :
    (L.forward inputs alpha gamma).hiddenStates[c]?
      = some (chunkWinner (forwardSnap L inputs alpha gamma) c)
    ∧ winnerSpec (chunkActs (forwardSnap L inputs alpha gamma) c)
        (chunkWinner (forwardSnap L inputs alpha gamma) c) := by
  constructor
  · exact foldF_hiddenStates_at (forwardSnap L inputs alpha gamma)
      (List.range (numHiddenChunks L)) (forwardSnap L inputs alpha gamma) c
      (List.nodup_range _) (List.mem_range.mpr hc) (by rw [show (forwardSnap L inputs alpha gamma).hiddenStates.length = L.hiddenStates.length from rfl, hlen]; exact hc)
  · have hpos : 0 < (chunkActs (forwardSnap L inputs alpha gamma) c).length := by
      obtain ⟨hcs, -⟩ := chunkGeom L c hc
      have : (chunkActs (forwardSnap L inputs alpha gamma) c).length
          = L.chunkSize * L.chunkSize := by
        show (List.map _ (List.range _)).length = _
        rw [List.length_map, List.length_range]
        rfl
      rw [this]
      exact Nat.mul_pos hcs hcs
    exact ⟨argmaxFirst_lt_length _ hpos,
      fun j hj => argmaxFirst_is_max _ j hj,
      fun j hj hje => argmaxFirst_first _ j hj hje⟩

/-- Witness for C4 at a concrete layer and chunk. -/
theorem forward_winner_maximal_witness :
    0 < numHiddenChunks sampleLayer
    ∧ sampleLayer.hiddenStates.length = numHiddenChunks sampleLayer
    ∧ ((Layer.forward sampleLayer [[0, 1]] 1 1).hiddenStates[0]?
        = some (chunkWinner (forwardSnap sampleLayer [[0, 1]] 1 1) 0)
      ∧ winnerSpec (chunkActs (forwardSnap sampleLayer [[0, 1]] 1 1) 0)
          (chunkWinner (forwardSnap sampleLayer [[0, 1]] 1 1) 0)) :=
  ⟨by decide, by decide,
    forward_winner_maximal sampleLayer [[0, 1]] 1 1 0 (by decide) (by decide)⟩

/-! Transport of creation-time configuration through forward/backward. -/

theorem descs_forward (L : Layer) (inputs : List (List Nat)) (alpha gamma : Int) :
    (L.forward inputs alpha gamma).visibleLayerDescs = L.visibleLayerDescs :=
  congrArg (fun t => t.2.2.2) (dims_forwardWith L inputs alpha gamma _)

theorem chunkSize_forward (L : Layer) (inputs : List (List Nat)) (alpha gamma : Int) :
    (L.forward inputs alpha gamma).chunkSize = L.chunkSize :=
  congrArg (fun t => t.2.2.1) (dims_forwardWith L inputs alpha gamma _)

theorem numHiddenChunks_forward (L : Layer) (inputs : List (List Nat)) (alpha gamma : Int) :
    numHiddenChunks (L.forward inputs alpha gamma) = numHiddenChunks L :=
  numHiddenChunks_eq_of_dims (dims_forwardWith L inputs alpha gamma _)

theorem descAt_forward (L : Layer) (inputs : List (List Nat)) (alpha gamma : Int) (v : Nat) :
    descAt (L.forward inputs alpha gamma) v = descAt L v := by
  unfold descAt
  rw [descs_forward]

theorem descs_backward (L : Layer) (fb : List (List Nat)) (beta : Int) :
    (L.backward fb beta).visibleLayerDescs = L.visibleLayerDescs :=
  congrArg (fun t => t.2.2.2) (dims_backwardWith L fb beta _)

theorem chunkSize_backward (L : Layer) (fb : List (List Nat)) (beta : Int) :
    (L.backward fb beta).chunkSize = L.chunkSize :=
  congrArg (fun t => t.2.2.1) (dims_backwardWith L fb beta _)

theorem numHiddenChunks_backward (L : Layer) (fb : List (List Nat)) (beta : Int) :
    numHiddenChunks (L.backward fb beta) = numHiddenChunks L :=
  numHiddenChunks_eq_of_dims (dims_backwardWith L fb beta _)

theorem descAt_backward (L : Layer) (fb : List (List Nat)) (beta : Int) (v : Nat) :
    descAt (L.backward fb beta) v = descAt L v := by
  unfold descAt
  rw [descs_backward]

/-- Visible-chunk geometry: a visible layer with at least one chunk has a
positive per-chunk candidate count. -/
theorem visGeom (d : VisibleLayerDesc) (h : 0 < numVisChunks d) : 0 < visCandCount d := by
  unfold numVisChunks at h
  unfold visCandCount
  rcases Nat.eq_zero_or_pos d.chunkSize.toNat with hz | hp
  · rw [hz] at h
    simp at h
  · exact Nat.mul_pos hp hp

theorem predWinner_lt (L : Layer) (v c : Nat) (h : 0 < visCandCount (descAt L v)) :
    predWinner L v c < visCandCount (descAt L v) := by
  have hlen : ((List.range (visCandCount (descAt L v))).map (predActivation L v c)).length
      = visCandCount (descAt L v) := by
    rw [List.length_map, List.length_range]
  have h2 := argmaxFirst_lt_length _ (by rw [hlen]; exact h)
  rw [hlen] at h2
  exact h2

/-- One-hot well-formedness of the chunked sparse state: the hidden state
holds one winner index per hidden chunk, each in `[0, chunkSize²)`, and
every predicted visible layer's prediction holds one winner index per
visible chunk, each in `[0, visibleChunkSize²)`. -/
def OneHot (L : Layer) : Prop :=
  L.hiddenStates.length = numHiddenChunks L
  ∧ (∀ e ∈ L.hiddenStates, e < L.chunkSize * L.chunkSize)
  ∧ L.predictions.length = L.visibleLayerDescs.length
  ∧ ∀ v, v < L.visibleLayerDescs.length → (descAt L v).predict = true →
      (row2 L.predictions v).length = numVisChunks (descAt L v)
      ∧ ∀ e ∈ row2 L.predictions v, e < visCandCount (descAt L v)

instance decOneHot (L : Layer) : Decidable (OneHot L) := by
  unfold OneHot
  infer_instance

/-- C2: after any `forward`/`backward` call on a created layer, every
hidden chunk and every chunk of every predicted visible layer's
prediction stores exactly one active-unit index in `[0, chunkSize²)`:
`create` establishes the one-hot state and both `forward` and `backward`
preserve (re-establish) it. -/
theorem one_hot_invariant :
    (∀ (hW hH cs nFB : Int) (descs : List VisibleLayerDesc) (seed : Nat) (L0 : Layer),
      Layer.create hW hH cs nFB descs seed = .ok L0 → OneHot L0)
    ∧ (∀ (L : Layer) (inputs : List (List Nat)) (alpha gamma : Int),
      OneHot L → OneHot (L.forward inputs alpha gamma))
    ∧ (∀ (L : Layer) (fb : List (List Nat)) (beta : Int),
      OneHot L → OneHot (L.backward fb beta)) := by
  refine ⟨?_, ?_, ?_⟩
  · intro hW hH cs nFB descs seed L0 hok
    unfold Layer.create at hok
    split at hok
    · exact absurd hok (by simp)
    · split at hok
      · exact absurd hok (by simp)
      · have hL0 := Except.ok.inj hok
        have hdescs : L0.visibleLayerDescs = descs := by rw [← hL0]
        have hpredl : L0.predictions
            = descs.map fun d => List.replicate (numVisChunks d) 0 := by rw [← hL0]
        have hhs : L0.hiddenStates
            = List.replicate (hW.toNat / cs.toNat * (hH.toNat / cs.toNat)) 0 := by rw [← hL0]
        have hcs0 : L0.chunkSize = cs.toNat := by rw [← hL0]
        have hW0 : L0.hiddenWidth = hW.toNat := by rw [← hL0]
        have hH0 : L0.hiddenHeight = hH.toNat := by rw [← hL0]
        refine ⟨?_, ?_, ?_, ?_⟩
        · rw [hhs, List.length_replicate]
          unfold numHiddenChunks hiddenChunksX hiddenChunksY
          rw [hW0, hH0, hcs0]
        · intro e he
          rw [hhs] at he
          obtain ⟨hne, he0⟩ := List.mem_replicate.mp he
          have hcs : 0 < cs.toNat := by
            rcases Nat.eq_zero_or_pos cs.toNat with hz | hp
            · rw [hz] at hne
              simp at hne
            · exact hp
          rw [he0, hcs0]
          exact Nat.mul_pos hcs hcs
        · rw [hpredl, List.length_map, hdescs]
        · intro v hv hp
          rw [hdescs] at hv
          have h5 : descs[v]? = some descs[v] := List.getElem?_eq_getElem hv
          have hdAt : descAt L0 v = descs[v] := by
            unfold descAt
            rw [hdescs, List.getD_eq_getElem?_getD, h5]
            rfl
          have hrow : row2 L0.predictions v
              = List.replicate (numVisChunks descs[v]) 0 := by
            unfold row2
            rw [hpredl, List.getD_eq_getElem?_getD, List.getElem?_map, h5]
            rfl
          constructor
          · rw [hrow, List.length_replicate, hdAt]
          · intro e he
            rw [hrow] at he
            obtain ⟨hne, he0⟩ := List.mem_replicate.mp he
            rw [he0, hdAt]
            exact visGeom _ (by omega)
  · intro L inputs alpha gamma hInv
    obtain ⟨hl, hent, hpl, hrows⟩ := hInv
    have hpred : (L.forward inputs alpha gamma).predictions = L.predictions :=
      (foldF_untouched (forwardSnap L inputs alpha gamma)
        (List.range (numHiddenChunks L)) (forwardSnap L inputs alpha gamma)).2.2.2.2.1
    refine ⟨?_, ?_, ?_, ?_⟩
    · rw [numHiddenChunks_forward, show (L.forward inputs alpha gamma).hiddenStates.length
          = L.hiddenStates.length from foldF_hiddenStates_length _ _ _, hl]
    · intro e he
      have he3 : e ∈ ((List.range (numHiddenChunks L)).foldl
          (applyForwardChunk (forwardSnap L inputs alpha gamma))
          (forwardSnap L inputs alpha gamma)).hiddenStates := he
      rw [chunkSize_forward]
      rcases foldF_hidden_entries _ _ _ e he3 with h | ⟨c, hcm, hew⟩
      · exact hent e h
      · have hc : c < numHiddenChunks L := List.mem_range.mp hcm
        obtain ⟨hcs, -⟩ := chunkGeom L c hc
        rw [hew]
        exact chunkWinner_lt (forwardSnap L inputs alpha gamma) c hcs
    · rw [hpred, descs_forward, hpl]
    · intro v hv hp
      rw [descs_forward] at hv
      rw [descAt_forward] at hp ⊢
      rw [show row2 (L.forward inputs alpha gamma).predictions v = row2 L.predictions v from by
        rw [hpred]]
      exact hrows v hv hp
  · intro L fb beta hInv
    obtain ⟨hl, hent, hpl, hrows⟩ := hInv
    have hsb : (L.backward fb beta).hiddenStates = L.hiddenStates :=
      (foldB_untouched (backwardSnap L fb beta) (backItems L) (backwardSnap L fb beta)).1
    refine ⟨?_, ?_, ?_, ?_⟩
    · rw [numHiddenChunks_backward, hsb, hl]
    · intro e he
      rw [hsb] at he
      rw [chunkSize_backward]
      exact hent e he
    · rw [descs_backward,
        show (L.backward fb beta).predictions.length = L.predictions.length from
          foldB_predictions_length _ _ _, hpl]
    · intro v hv hp
      rw [descs_backward] at hv
      rw [descAt_backward] at hp ⊢
      constructor
      · rw [show (row2 (L.backward fb beta).predictions v).length
            = (row2 L.predictions v).length from foldB_pred_row_length _ _ _ _]
        exact (hrows v hv hp).1
      · intro e he
        have he3 : e ∈ row2 ((backItems L).foldl
            (applyPredictionItem (backwardSnap L fb beta)) (backwardSnap L fb beta)).predictions v :=
          he
        rcases foldB_pred_row_entries _ _ _ v e he3 with h | ⟨vi, hvim, hv1, hew⟩
        · exact (hrows v hv hp).2 e h
        · obtain ⟨-, -, hc2⟩ := backItems_mem L vi hvim
          rw [hv1] at hc2
          have hds : descAt (backwardSnap L fb beta) v = descAt L v := rfl
          have hcand : 0 < visCandCount (descAt (backwardSnap L fb beta) v) := by
            rw [hds]
            exact visGeom _ (by omega)
          have h6 := predWinner_lt (backwardSnap L fb beta) v vi.2 hcand
          rw [hds] at h6
          rw [hew, hv1]
          exact h6

/-! Flat store layout: reading a `range`-generated arena. -/

theorem layout_getElem? {α : Type} (n : Nat) (g : Nat → α) (i : Nat) (hi : i < n) :
    ((List.range n).map g)[i]? = some (g i) := by
  rw [List.getElem?_map, List.getElem?_range hi]
  rfl

theorem ffFlat_lt (numV W H v x y : Nat) (hv : v < numV) (hx : x < W) (hy : y < H) :
    v + numV * (x + y * W) < numV * (W * H) := by
  have h1 : x + y * W < W * H := by
    calc x + y * W < W + y * W := by omega
      _ = (y + 1) * W := by ring
      _ ≤ H * W := Nat.mul_le_mul_right _ (by omega)
      _ = W * H := Nat.mul_comm _ _
  calc v + numV * (x + y * W) < numV + numV * (x + y * W) := by omega
    _ = numV * (x + y * W + 1) := by ring
    _ ≤ numV * (W * H) := Nat.mul_le_mul_left _ (by omega)

theorem flatV_add (numV v t : Nat) (hv : v < numV) : flatV numV (v + numV * t) = v := by
  unfold flatV
  rw [Nat.add_mul_mod_self_left]
  exact Nat.mod_eq_of_lt hv

theorem flatX_add (numV W v x y : Nat) (hv : v < numV) (hx : x < W) :
    flatX numV W (v + numV * (x + y * W)) = x := by
  unfold flatX
  have hnv : 0 < numV := by omega
  rw [Nat.add_mul_div_left _ _ hnv, Nat.div_eq_of_lt hv, Nat.zero_add,
    Nat.add_mul_mod_self_right]
  exact Nat.mod_eq_of_lt hx

theorem flatY_add (numV W v x y : Nat) (hv : v < numV) (hx : x < W) :
    flatY numV W (v + numV * (x + y * W)) = y := by
  unfold flatY
  have hnv : 0 < numV := by omega
  have hW : 0 < W := by omega
  rw [Nat.add_mul_div_left _ _ hnv, Nat.div_eq_of_lt hv, Nat.zero_add,
    Nat.mul_comm y W, Nat.add_mul_div_left _ _ hW, Nat.div_eq_of_lt hx, Nat.zero_add]

theorem ffIndex_ne_of_v_ne (L : Layer) (v1 x1 y1 v2 x2 y2 : Nat)
    (hv1 : v1 < L.visibleLayerDescs.length) (hv2 : v2 < L.visibleLayerDescs.length)
    (hne : v1 ≠ v2) : L.ffIndex v1 x1 y1 ≠ L.ffIndex v2 x2 y2 := by
  intro h
  unfold Layer.ffIndex at h
  have h2 := congrArg (fun t => t % L.visibleLayerDescs.length) h
  simp only [Nat.add_mul_mod_self_left] at h2
  rw [Nat.mod_eq_of_lt hv1, Nat.mod_eq_of_lt hv2] at h2
  exact hne h2

/-! Unchanged slices of the backward batch (for `predict = false`). -/

theorem foldB_predictions_unchanged_at (snap : Layer) (order : List (Nat × Nat)) (s : Layer)
    (v : Nat) (h : ∀ vi ∈ order, vi.1 ≠ v) :
    (order.foldl (applyPredictionItem snap) s).predictions[v]? = s.predictions[v]? := by
  induction order generalizing s with
  | nil => rfl
  | cons vi order ih =>
    rw [List.foldl_cons, ih _ (fun vi' hvi' => h vi' (List.mem_cons_of_mem _ hvi'))]
    exact set2_getElem?_ne _ _ _ _ _ (fun hc => h vi (List.mem_cons_self _ _) hc.symm)

theorem getVec3?_set3_ne (l : List (List (List α))) (i j k : Nat) (a : α) (f idx : Nat)
    (hj : j ≠ idx) :
    ((set3 l i j k a)[f]?).bind (fun r => r[idx]?) = (l[f]?).bind (fun r => r[idx]?) := by
  by_cases hf : f = i
  · subst hf
    rw [set3_getElem?_self]
    cases h : l[f]? with
    | none => rfl
    | some r =>
      show (set2 r j k a)[idx]? = r[idx]?
      exact set2_getElem?_ne _ _ _ _ _ (fun hc => hj hc.symm)
  · rw [set3_getElem?_ne _ _ _ _ _ _ hf]

theorem getVec3?_setMany3_ne (l : List (List (List α))) (ws : List ((Nat × Nat × Nat) × α))
    (f idx : Nat) (h : ∀ w ∈ ws, w.1.2.1 ≠ idx) :
    ((setMany3 l ws)[f]?).bind (fun r => r[idx]?) = (l[f]?).bind (fun r => r[idx]?) := by
  induction ws generalizing l with
  | nil => rfl
  | cons w ws ih =>
    rw [setMany3_cons, ih _ (fun w' hw' => h w' (List.mem_cons_of_mem _ hw'))]
    exact getVec3?_set3_ne _ _ _ _ _ _ _ (h w (List.mem_cons_self _ _))

theorem foldB_predWeights_vec_unchanged (snap : Layer) (order : List (Nat × Nat)) (s : Layer)
    (idx : Nat) (h : ∀ vi ∈ order, ∀ w ∈ predWrites snap vi, w.1.2.1 ≠ idx) (f : Nat) :
    ((order.foldl (applyPredictionItem snap) s).predictionWeights[f]?).bind (fun r => r[idx]?)
      = (s.predictionWeights[f]?).bind (fun r => r[idx]?) := by
  induction order generalizing s with
  | nil => rfl
  | cons vi order ih =>
    rw [List.foldl_cons, ih _ (fun vi' hvi' => h vi' (List.mem_cons_of_mem _ hvi'))]
    exact getVec3?_setMany3_ne _ _ _ _ (h vi (List.mem_cons_self _ _))

theorem hiddenWidth_forward (L : Layer) (inputs : List (List Nat)) (alpha gamma : Int) :
    (L.forward inputs alpha gamma).hiddenWidth = L.hiddenWidth :=
  congrArg (fun t => t.1) (dims_forwardWith L inputs alpha gamma _)

theorem hiddenWidth_backward (L : Layer) (fb : List (List Nat)) (beta : Int) :
    (L.backward fb beta).hiddenWidth = L.hiddenWidth :=
  congrArg (fun t => t.1) (dims_backwardWith L fb beta _)

theorem ffIndex_forward (L : Layer) (inputs : List (List Nat)) (alpha gamma : Int)
    (v x y : Nat) : (L.forward inputs alpha gamma).ffIndex v x y = L.ffIndex v x y := by
  unfold Layer.ffIndex
  rw [descs_forward, hiddenWidth_forward]

theorem ffIndex_backward (L : Layer) (fb : List (List Nat)) (beta : Int)
    (v x y : Nat) : (L.backward fb beta).ffIndex v x y = L.ffIndex v x y := by
  unfold Layer.ffIndex
  rw [descs_backward, hiddenWidth_backward]

/-- The layer produced by `create` on a small valid configuration. -/
def sampleCreated : Layer :=
  match Layer.create 2 1 1 1
      [{ width := 2, height := 1, chunkSize := 1, radius := 1, predict := true }] 7 with
  | .ok L => L
  | .error _ => sampleLayer

/-- Witness for C2 at concrete layers and calls. -/
theorem one_hot_invariant_witness :
    (Layer.create 2 1 1 1
        [{ width := 2, height := 1, chunkSize := 1, radius := 1, predict := true }] 7
      = .ok sampleCreated ∧ OneHot sampleCreated)
    ∧ (OneHot sampleLayer ∧ OneHot (Layer.forward sampleLayer [[1, 0]] 1 1))
    ∧ OneHot (Layer.backward sampleLayer [[0, 1]] 1) :=
  ⟨⟨rfl,
    one_hot_invariant.1 2 1 1 1
      [{ width := 2, height := 1, chunkSize := 1, radius := 1, predict := true }] 7
      sampleCreated rfl⟩,
   ⟨by decide, one_hot_invariant.2.1 sampleLayer [[1, 0]] 1 1 (by decide)⟩,
   one_hot_invariant.2.2 sampleLayer [[0, 1]] 1 (by decide)⟩

/-- C7: skip-predict.  A visible layer whose descriptor has
`predict = false` gets no prediction weight allocation at `create` (its
weight vectors are empty), `backward` performs no prediction work for it
(its predictions and prediction weights are returned unchanged by the
accessors), and `forward` leaves all prediction state unchanged. -/
theorem skip_predict :
    (∀ (hW hH cs nFB : Int) (descs : List VisibleLayerDesc) (seed : Nat) (L0 : Layer)
        (f v x y : Nat),
      Layer.create hW hH cs nFB descs seed = .ok L0 →
      v < descs.length → (descs.getD v {}).predict = false →
      f < nFB.toNat → x < hW.toNat → y < hH.toNat →
      L0.getPredictionWeights f v x y = some [])
    ∧ (∀ (L : Layer) (fb : List (List Nat)) (beta : Int) (v : Nat),
      v < L.visibleLayerDescs.length → (descAt L v).predict = false →
      (L.backward fb beta).getPredictions v = L.getPredictions v
      ∧ ∀ f x y, (L.backward fb beta).getPredictionWeights f v x y
          = L.getPredictionWeights f v x y)
    ∧ (∀ (L : Layer) (inputs : List (List Nat)) (alpha gamma : Int) (v : Nat),
      (L.forward inputs alpha gamma).getPredictions v = L.getPredictions v
      ∧ ∀ f x y, (L.forward inputs alpha gamma).getPredictionWeights f v x y
          = L.getPredictionWeights f v x y) := by
  refine ⟨?_, ?_, ?_⟩
  · intro hW hH cs nFB descs seed L0 f v x y hok hv hp hf hx hy
    unfold Layer.create at hok
    split at hok
    · exact absurd hok (by simp)
    · split at hok
      · exact absurd hok (by simp)
      · have hL0 := Except.ok.inj hok
        have hdescs : L0.visibleLayerDescs = descs := by rw [← hL0]
        have hW0 : L0.hiddenWidth = hW.toNat := by rw [← hL0]
        have hpw : L0.predictionWeights
            = (List.range nFB.toNat).map fun fi =>
                (List.range (descs.length * (hW.toNat * hH.toNat))).map fun i =>
                  predInitVec descs hW.toNat hH.toNat seed fi i := by rw [← hL0]
        have hidx : L0.ffIndex v x y = v + descs.length * (x + y * hW.toNat) := by
          unfold Layer.ffIndex
          rw [hdescs, hW0]
        unfold Layer.getPredictionWeights
        rw [hpw, hidx, layout_getElem? _ _ f hf]
        show ((List.range (descs.length * (hW.toNat * hH.toNat))).map fun i =>
          predInitVec descs hW.toNat hH.toNat seed f i)[v + descs.length * (x + y * hW.toNat)]?
          = some []
        rw [layout_getElem? _ _ _ (ffFlat_lt _ _ _ _ _ _ hv hx hy)]
        unfold predInitVec
        rw [flatV_add _ _ _ hv]
        rw [show (descs.getD v {}).predict = false from hp]
        rfl
  · intro L fb beta v hv hp
    have hnv : ∀ vi ∈ backItems L, vi.1 ≠ v := by
      intro vi hvi hc
      obtain ⟨-, hpr, -⟩ := backItems_mem L vi hvi
      rw [hc, hp] at hpr
      exact Bool.false_ne_true hpr
    constructor
    · exact foldB_predictions_unchanged_at (backwardSnap L fb beta) (backItems L)
        (backwardSnap L fb beta) v hnv
    · intro f x y
      have hmid : ∀ vi ∈ backItems L, ∀ w ∈ predWrites (backwardSnap L fb beta) vi,
          w.1.2.1 ≠ L.ffIndex v x y := by
        intro vi hvi w hw
        obtain ⟨f', u, k, hu, he, -⟩ := predWrites_mem (backwardSnap L fb beta) vi w hw
        rw [he]
        show (backwardSnap L fb beta).ffIndex vi.1 _ _ ≠ L.ffIndex v x y
        have hsnap : ∀ a b c, (backwardSnap L fb beta).ffIndex a b c = L.ffIndex a b c :=
          fun _ _ _ => rfl
        rw [hsnap]
        exact ffIndex_ne_of_v_ne L vi.1 _ _ v x y (backItems_mem L vi hvi).1 hv
          (fun hc => hnv vi hvi hc)
      show ((L.backward fb beta).predictionWeights[f]?).bind
          (fun r => r[(L.backward fb beta).ffIndex v x y]?) = _
      rw [ffIndex_backward]
      exact foldB_predWeights_vec_unchanged (backwardSnap L fb beta) (backItems L)
        (backwardSnap L fb beta) (L.ffIndex v x y) hmid f
  · intro L inputs alpha gamma v
    have hu := foldF_untouched (forwardSnap L inputs alpha gamma)
      (List.range (numHiddenChunks L)) (forwardSnap L inputs alpha gamma)
    constructor
    · show (L.forward inputs alpha gamma).predictions[v]? = L.predictions[v]?
      rw [show (L.forward inputs alpha gamma).predictions = L.predictions from hu.2.2.2.2.1]
    · intro f x y
      show ((L.forward inputs alpha gamma).predictionWeights[f]?).bind
          (fun r => r[(L.forward inputs alpha gamma).ffIndex v x y]?) = _
      rw [ffIndex_forward,
        show (L.forward inputs alpha gamma).predictionWeights = L.predictionWeights from
          hu.2.2.2.2.2.1]
      rfl

/-- A non-predicted visible layer descriptor. -/
def npDesc : VisibleLayerDesc :=
  { width := 2, height := 1, chunkSize := 1, radius := 1, predict := false }

/-- `sampleLayer` with its visible layer not predicted. -/
def sampleLayerNP : Layer := { sampleLayer with visibleLayerDescs := [npDesc] }

/-- The layer produced by `create` on a configuration whose only visible
layer is not predicted. -/
def sampleCreatedNP : Layer :=
  match Layer.create 2 1 1 1 [npDesc] 7 with
  | .ok L => L
  | .error _ => sampleLayer

/-- Witness for C7 at concrete layers and calls. -/
theorem skip_predict_witness :
    (Layer.create 2 1 1 1 [npDesc] 7 = .ok sampleCreatedNP
      ∧ 0 < ([npDesc] : List VisibleLayerDesc).length
      ∧ (([npDesc] : List VisibleLayerDesc).getD 0 {}).predict = false
      ∧ 0 < (1 : Int).toNat ∧ 0 < (2 : Int).toNat
      ∧ sampleCreatedNP.getPredictionWeights 0 0 0 0 = some [])
    ∧ (0 < sampleLayerNP.visibleLayerDescs.length
      ∧ (descAt sampleLayerNP 0).predict = false
      ∧ (Layer.backward sampleLayerNP [[0, 0]] 1).getPredictions 0
          = sampleLayerNP.getPredictions 0
      ∧ (Layer.backward sampleLayerNP [[0, 0]] 1).getPredictionWeights 0 0 0 0
          = sampleLayerNP.getPredictionWeights 0 0 0 0)
    ∧ ((Layer.forward sampleLayerNP [[0, 0]] 1 1).getPredictions 0
        = sampleLayerNP.getPredictions 0
      ∧ (Layer.forward sampleLayerNP [[0, 0]] 1 1).getPredictionWeights 0 0 0 0
          = sampleLayerNP.getPredictionWeights 0 0 0 0) :=
  ⟨⟨rfl, by decide, by decide, by decide, by decide,
    skip_predict.1 2 1 1 1 [npDesc] 7 sampleCreatedNP 0 0 0 0 rfl
      (by decide) (by decide) (by decide) (by decide) (by decide)⟩,
   ⟨by decide, by decide,
    (skip_predict.2.1 sampleLayerNP [[0, 0]] 1 0 (by decide) (by decide)).1,
    (skip_predict.2.1 sampleLayerNP [[0, 0]] 1 0 (by decide) (by decide)).2 0 0 0⟩,
   ⟨(skip_predict.2.2 sampleLayerNP [[0, 0]] 1 1 0).1,
    (skip_predict.2.2 sampleLayerNP [[0, 0]] 1 1 0).2 0 0 0⟩⟩

theorem invalid_iff (d : VisibleLayerDesc) :
    d.invalid = true ↔ (d.width ≤ 0 ∨ d.height ≤ 0 ∨ d.chunkSize ≤ 0 ∨ d.radius ≤ 0) := by
  simp only [VisibleLayerDesc.invalid, Bool.or_eq_true, decide_eq_true_eq]
  tauto

/-- C5: `Layer::create` reports a configuration error — returning no
layer state at all — exactly when the descriptor list is empty or some
descriptor has a non-positive width, height, chunk size or radius. -/
theorem create_validation (hW hH cs nFB : Int) (descs : List VisibleLayerDesc) (seed : Nat) :
    (∃ e, Layer.create hW hH cs nFB descs seed = .error e)
      ↔ (descs = [] ∨ ∃ d ∈ descs,
          d.width ≤ 0 ∨ d.height ≤ 0 ∨ d.chunkSize ≤ 0 ∨ d.radius ≤ 0) := by
  constructor
  · rintro ⟨e, he⟩
    unfold Layer.create at he
    split at he
    · left
      exact List.isEmpty_iff.mp (by assumption)
    · split at he
      · right
        obtain ⟨d, hd, hinv⟩ := List.any_eq_true.mp (by assumption)
        exact ⟨d, hd, (invalid_iff d).mp hinv⟩
      · exact absurd he (by simp)
  · intro h
    by_cases hE : descs.isEmpty
    · refine ⟨.emptyDescs, ?_⟩
      unfold Layer.create
      rw [if_pos hE]
    · have hne : ¬descs = [] := fun hc => hE (by rw [hc]; rfl)
      have hbad : descs.any VisibleLayerDesc.invalid = true := by
        rcases h with h | ⟨d, hd, hinv⟩
        · exact absurd h hne
        · exact List.any_eq_true.mpr ⟨d, hd, (invalid_iff d).mpr hinv⟩
      refine ⟨.badDesc (descs.findIdx VisibleLayerDesc.invalid), ?_⟩
      unfold Layer.create
      rw [if_neg hE, if_pos hbad]

/-- C9: both weight accessors address their flat stores with the
stride/offset formula `i = v + numVisibleLayers * (x + y * hiddenWidth)`:
over an arena laid out cell-by-cell by a generator (which is exactly how
`create` lays it out), `getFeedForwardWeights v x y` returns the
generator's vector for flat index `v + numV * (x + y * W)` and
`getPredictionWeights f v x y` the feedback-`f` generator's vector at
the same flat index; instantiated at a created layer, the accessors
return that cell's initial weight vectors. -/
theorem accessor_stride :
    (∀ (L : Layer) (g : Nat → List Int) (gp : Nat → Nat → List Int) (nFB f v x y : Nat),
      L.feedForwardWeights
        = (List.range (L.visibleLayerDescs.length * (L.hiddenWidth * L.hiddenHeight))).map g →
      L.predictionWeights
        = (List.range nFB).map (fun fi =>
            (List.range (L.visibleLayerDescs.length * (L.hiddenWidth * L.hiddenHeight))).map
              (gp fi)) →
      v < L.visibleLayerDescs.length → x < L.hiddenWidth → y < L.hiddenHeight → f < nFB →
      L.getFeedForwardWeights v x y
          = some (g (v + L.visibleLayerDescs.length * (x + y * L.hiddenWidth)))
      ∧ L.getPredictionWeights f v x y
          = some (gp f (v + L.visibleLayerDescs.length * (x + y * L.hiddenWidth))))
    ∧ (∀ (hW hH cs nFB : Int) (descs : List VisibleLayerDesc) (seed : Nat) (L0 : Layer)
        (f v x y : Nat),
      Layer.create hW hH cs nFB descs seed = .ok L0 →
      v < descs.length → x < hW.toNat → y < hH.toNat → f < nFB.toNat →
      L0.getFeedForwardWeights v x y
          = some (ffInitVec descs hW.toNat hH.toNat seed
              (v + descs.length * (x + y * hW.toNat)))
      ∧ L0.getPredictionWeights f v x y
          = some (predInitVec descs hW.toNat hH.toNat seed f
              (v + descs.length * (x + y * hW.toNat)))) := by
  constructor
  · intro L g gp nFB f v x y hff hpw hv hx hy hf
    constructor
    · unfold Layer.getFeedForwardWeights Layer.ffIndex
      rw [hff]
      exact layout_getElem? _ _ _ (ffFlat_lt _ _ _ _ _ _ hv hx hy)
    · unfold Layer.getPredictionWeights Layer.ffIndex
      rw [hpw, layout_getElem? _ _ f hf]
      show ((List.range (L.visibleLayerDescs.length
          * (L.hiddenWidth * L.hiddenHeight))).map (gp f))[_]? = _
      exact layout_getElem? _ _ _ (ffFlat_lt _ _ _ _ _ _ hv hx hy)
  · intro hW hH cs nFB descs seed L0 f v x y hok hv hx hy hf
    unfold Layer.create at hok
    split at hok
    · exact absurd hok (by simp)
    · split at hok
      · exact absurd hok (by simp)
      · have hL0 := Except.ok.inj hok
        have hdescs : L0.visibleLayerDescs = descs := by rw [← hL0]
        have hW0 : L0.hiddenWidth = hW.toNat := by rw [← hL0]
        have hH0 : L0.hiddenHeight = hH.toNat := by rw [← hL0]
        have hffw : L0.feedForwardWeights
            = (List.range (descs.length * (hW.toNat * hH.toNat))).map
                (ffInitVec descs hW.toNat hH.toNat seed) := by rw [← hL0]
        have hpww : L0.predictionWeights
            = (List.range nFB.toNat).map (fun fi =>
                (List.range (descs.length * (hW.toNat * hH.toNat))).map
                  (predInitVec descs hW.toNat hH.toNat seed fi)) := by rw [← hL0]
        have hidx : L0.ffIndex v x y = v + descs.length * (x + y * hW.toNat) := by
          unfold Layer.ffIndex
          rw [hdescs, hW0]
        constructor
        · unfold Layer.getFeedForwardWeights
          rw [hffw, hidx]
          exact layout_getElem? _ _ _ (ffFlat_lt _ _ _ _ _ _ hv hx hy)
        · unfold Layer.getPredictionWeights
          rw [hpww, hidx, layout_getElem? _ _ f hf]
          show ((List.range (descs.length * (hW.toNat * hH.toNat))).map
            (predInitVec descs hW.toNat hH.toNat seed f))[_]? = _
          exact layout_getElem? _ _ _ (ffFlat_lt _ _ _ _ _ _ hv hx hy)

/-- Witness for C9 at a created layer and concrete cell. -/
theorem accessor_stride_witness :
    (sampleCreated.feedForwardWeights
      = (List.range (sampleCreated.visibleLayerDescs.length
          * (sampleCreated.hiddenWidth * sampleCreated.hiddenHeight))).map
          (ffInitVec [{ width := 2, height := 1, chunkSize := 1, radius := 1, predict := true }]
            2 1 7)
      ∧ Layer.create 2 1 1 1
          [{ width := 2, height := 1, chunkSize := 1, radius := 1, predict := true }] 7
        = .ok sampleCreated
      ∧ 0 < ([{ width := 2, height := 1, chunkSize := 1, radius := 1, predict := true }]
          : List VisibleLayerDesc).length
      ∧ 1 < (2 : Int).toNat ∧ 0 < (1 : Int).toNat ∧ 0 < (1 : Int).toNat)
    ∧ (sampleCreated.getFeedForwardWeights 0 1 0
        = some (ffInitVec [{ width := 2, height := 1, chunkSize := 1, radius := 1, predict := true }]
            2 1 7 (0 + 1 * (1 + 0 * 2)))
      ∧ sampleCreated.getPredictionWeights 0 0 1 0
        = some (predInitVec [{ width := 2, height := 1, chunkSize := 1, radius := 1, predict := true }]
            2 1 7 0 (0 + 1 * (1 + 0 * 2)))) :=
  ⟨⟨by decide, rfl, by decide, by decide, by decide, by decide⟩,
    accessor_stride.2 2 1 1 1
      [{ width := 2, height := 1, chunkSize := 1, radius := 1, predict := true }] 7
      sampleCreated 0 0 1 0 rfl (by decide) (by decide) (by decide) (by decide)⟩

/-- C10 counterexample: the weight accessors do not bounds-check their
cell coordinates, and their flat stride formula can land inside the
store even for an out-of-range visible-layer index: on `sampleLayer`
(one visible layer), `v = 1` is outside `[0, numVisibleLayers)` yet
`getFeedForwardWeights 1 0 0` still returns a value (it aliases the cell
of flat index 1), so the precondition is not *exactly* the condition for
the in-bounds branch. -/
theorem accessor_bounds_counterexample :
    ¬ 1 < sampleLayer.getNumVisibleLayers
    ∧ (sampleLayer.getFeedForwardWeights 1 0 0).isSome = true := by
  constructor
  · decide
  · decide

theorem isSome_getElem?_iff (l : List α) (i : Nat) :
    (l[i]?).isSome = true ↔ i < l.length := by
  constructor
  · intro hs
    by_contra hlt
    push_neg at hlt
    rw [List.getElem?_eq_none hlt] at hs
    simp at hs
  · intro hlt
    rw [List.getElem?_eq_getElem hlt]
    rfl

/-- C10 (amended): the index-taking accessors perform no bounds checks;
in the `Option`-returning total embedding, the stated preconditions
(`v < numVisibleLayers`, `f < numFeedBackLayers`, `(x, y)` inside the
hidden grid) are sufficient for every accessor to take the in-bounds
branch, and for the directly-indexed accessors (`getVisibleLayerDesc`,
`getInputs`, `getPredictions`, `getFeedBack`, `getFeedBackPrev`) they
are also necessary; for the flat-stride weight accessors they are
sufficient but not necessary (the computed flat index can stay in bounds
for out-of-range coordinates, aliasing another cell). -/
theorem accessor_bounds (L : Layer) (v f x y : Nat)
    (hin : L.inputs.length = L.visibleLayerDescs.length)
    (hpr : L.predictions.length = L.visibleLayerDescs.length)
    (hfbp : L.feedBackPrev.length = L.feedBack.length)
    (hffl : L.feedForwardWeights.length
      = L.visibleLayerDescs.length * (L.hiddenWidth * L.hiddenHeight))
    (hpwl : L.predictionWeights.length = L.feedBack.length)
    (hpwr : ∀ r ∈ L.predictionWeights, r.length
      = L.visibleLayerDescs.length * (L.hiddenWidth * L.hiddenHeight)) :
    ((L.getVisibleLayerDesc v).isSome = true ↔ v < L.getNumVisibleLayers)
    ∧ ((L.getInputs v).isSome = true ↔ v < L.getNumVisibleLayers)
    ∧ ((L.getPredictions v).isSome = true ↔ v < L.getNumVisibleLayers)
    ∧ ((L.getFeedBack f).isSome = true ↔ f < L.getNumFeedBackLayers)
    ∧ ((L.getFeedBackPrev f).isSome = true ↔ f < L.getNumFeedBackLayers)
    ∧ (v < L.getNumVisibleLayers → x < L.hiddenWidth → y < L.hiddenHeight →
        (L.getFeedForwardWeights v x y).isSome = true
        ∧ (f < L.getNumFeedBackLayers → (L.getPredictionWeights f v x y).isSome = true)) := by
  refine ⟨?_, ?_, ?_, ?_, ?_, ?_⟩
  · unfold Layer.getVisibleLayerDesc Layer.getNumVisibleLayers
    rw [isSome_getElem?_iff]
  · unfold Layer.getInputs Layer.getNumVisibleLayers
    rw [isSome_getElem?_iff _ _, hin]
  · unfold Layer.getPredictions Layer.getNumVisibleLayers
    rw [isSome_getElem?_iff _ _, hpr]
  · unfold Layer.getFeedBack Layer.getNumFeedBackLayers
    rw [isSome_getElem?_iff]
  · unfold Layer.getFeedBackPrev Layer.getNumFeedBackLayers
    rw [isSome_getElem?_iff _ _, hfbp]
  · intro hv hx hy
    constructor
    · unfold Layer.getFeedForwardWeights Layer.ffIndex
      rw [isSome_getElem?_iff _ _, hffl]
      exact ffFlat_lt _ _ _ _ _ _ hv hx hy
    · intro hf
      have hflen : f < L.predictionWeights.length := by
        rw [hpwl]
        exact hf
      unfold Layer.getPredictionWeights Layer.ffIndex
      rw [List.getElem?_eq_getElem hflen]
      show ((L.predictionWeights.get ⟨f, hflen⟩)[v + L.visibleLayerDescs.length
        * (x + y * L.hiddenWidth)]?).isSome = true
      rw [isSome_getElem?_iff _ _,
        hpwr (L.predictionWeights.get ⟨f, hflen⟩) (List.getElem_mem hflen)]
      exact ffFlat_lt _ _ _ _ _ _ hv hx hy

/-- Witness for C10 at a concrete layer and indices. -/
theorem accessor_bounds_witness :
    (sampleLayer.inputs.length = sampleLayer.visibleLayerDescs.length
      ∧ sampleLayer.predictions.length = sampleLayer.visibleLayerDescs.length
      ∧ sampleLayer.feedBackPrev.length = sampleLayer.feedBack.length
      ∧ sampleLayer.feedForwardWeights.length
          = sampleLayer.visibleLayerDescs.length
            * (sampleLayer.hiddenWidth * sampleLayer.hiddenHeight)
      ∧ sampleLayer.predictionWeights.length = sampleLayer.feedBack.length
      ∧ ∀ r ∈ sampleLayer.predictionWeights, r.length
          = sampleLayer.visibleLayerDescs.length
            * (sampleLayer.hiddenWidth * sampleLayer.hiddenHeight))
    ∧ (((sampleLayer.getVisibleLayerDesc 0).isSome = true
          ↔ 0 < sampleLayer.getNumVisibleLayers)
      ∧ ((sampleLayer.getInputs 0).isSome = true ↔ 0 < sampleLayer.getNumVisibleLayers)
      ∧ ((sampleLayer.getPredictions 0).isSome = true ↔ 0 < sampleLayer.getNumVisibleLayers)
      ∧ ((sampleLayer.getFeedBack 0).isSome = true ↔ 0 < sampleLayer.getNumFeedBackLayers)
      ∧ ((sampleLayer.getFeedBackPrev 0).isSome = true
          ↔ 0 < sampleLayer.getNumFeedBackLayers)
      ∧ (0 < sampleLayer.getNumVisibleLayers → 1 < sampleLayer.hiddenWidth
          → 0 < sampleLayer.hiddenHeight →
          (sampleLayer.getFeedForwardWeights 0 1 0).isSome = true
          ∧ (0 < sampleLayer.getNumFeedBackLayers
            → (sampleLayer.getPredictionWeights 0 0 1 0).isSome = true))) :=
  ⟨⟨by decide, by decide, by decide, by decide, by decide, by decide⟩,
    accessor_bounds sampleLayer 0 0 1 0 (by decide) (by decide) (by decide)
      (by decide) (by decide) (by decide)⟩

/-! Window geometry (C8). -/

theorem axisWindow_length (c r n : Nat) : (axisWindow c r n).length = windowExtent c r n := by
  simp [axisWindow]

theorem length_flatMap_const {α β : Type} {f : α → List β} (l : List α) (k : Nat)
    (h : ∀ a ∈ l, (f a).length = k) : (l.flatMap f).length = l.length * k := by
  induction l with
  | nil => simp
  | cons a l ih =>
    rw [List.flatMap_cons, List.length_append, h a (List.mem_cons_self _ _),
      ih (fun a' ha' => h a' (List.mem_cons_of_mem _ ha')), List.length_cons]
    ring

theorem windowList_length (w h cx cy r : Nat) :
    (windowList w h cx cy r).length = windowExtent cy r h * windowExtent cx r w := by
  unfold windowList
  rw [length_flatMap_const _ (windowExtent cx r w)
      (fun qy _ => by rw [List.length_map, axisWindow_length]),
    axisWindow_length]

theorem descWindow_length (d : VisibleLayerDesc) (W H x y : Nat) :
    (descWindow d W H x y).length
      = windowExtent (project y H d.height.toNat) d.radius.toNat d.height.toNat
        * windowExtent (project x W d.width.toNat) d.radius.toNat d.width.toNat := by
  unfold descWindow
  exact windowList_length _ _ _ _ _

theorem mem_axisWindow (q c r n : Nat) :
    q ∈ axisWindow c r n ↔ windowLow c r ≤ q ∧ q ≤ windowHigh c r n := by
  unfold axisWindow windowExtent
  constructor
  · intro hq
    obtain ⟨k, hk, he⟩ := List.mem_map.mp hq
    have hk2 := List.mem_range.mp hk
    omega
  · intro ⟨h1, h2⟩
    exact List.mem_map.mpr ⟨q - windowLow c r, List.mem_range.mpr (by omega), by omega⟩

theorem windowExtent_corner (r n : Nat) (hn : 0 < n) :
    windowExtent 0 r n = min (r + 1) n := by
  unfold windowExtent windowHigh windowLow
  omega

theorem windowExtent_interior (c r n : Nat) (h1 : r ≤ c) (h2 : c + r < n) :
    windowExtent c r n = 2 * r + 1 := by
  unfold windowExtent windowHigh windowLow
  omega

/-- C8: connectivity windows are the radius-`r` squares around the
projected centre, clipped at the image boundaries with no wraparound:
every connected visible position lies inside the image and within
Chebyshev distance `r` of the centre; a corner unit's effective window
extent per axis is `min(2r+1, r+1+distance-to-edge) = min(r+1, extent)`
(the clipped value), and on a created layer a corner unit's feed-forward
weight vector is strictly shorter than an interior (unclipped) unit's
whenever the radius is positive. -/
theorem boundary_windows :
    (∀ (d : VisibleLayerDesc) (W H x y : Nat), 0 < d.width.toNat → 0 < d.height.toNat →
      ∀ q ∈ descWindow d W H x y,
        q.1 < d.width.toNat ∧ q.2 < d.height.toNat
        ∧ project x W d.width.toNat ≤ q.1 + d.radius.toNat
        ∧ q.1 ≤ project x W d.width.toNat + d.radius.toNat
        ∧ project y H d.height.toNat ≤ q.2 + d.radius.toNat
        ∧ q.2 ≤ project y H d.height.toNat + d.radius.toNat)
    ∧ (∀ (d : VisibleLayerDesc) (W H : Nat), 0 < d.width.toNat → 0 < d.height.toNat →
      (descWindow d W H 0 0).length
        = min (d.radius.toNat + 1) d.height.toNat * min (d.radius.toNat + 1) d.width.toNat)
    ∧ (∀ (hW hH cs nFB : Int) (descs : List VisibleLayerDesc) (seed : Nat) (L0 : Layer)
        (v xi yi : Nat),
      Layer.create hW hH cs nFB descs seed = .ok L0 →
      v < descs.length → xi < hW.toNat → yi < hH.toNat →
      1 ≤ (descs.getD v {}).radius.toNat →
      (descs.getD v {}).radius.toNat ≤ project xi hW.toNat (descs.getD v {}).width.toNat →
      project xi hW.toNat (descs.getD v {}).width.toNat + (descs.getD v {}).radius.toNat
        < (descs.getD v {}).width.toNat →
      (descs.getD v {}).radius.toNat ≤ project yi hH.toNat (descs.getD v {}).height.toNat →
      project yi hH.toNat (descs.getD v {}).height.toNat + (descs.getD v {}).radius.toNat
        < (descs.getD v {}).height.toNat →
      ((L0.getFeedForwardWeights v 0 0).getD []).length
        < ((L0.getFeedForwardWeights v xi yi).getD []).length) := by
  refine ⟨?_, ?_, ?_⟩
  · intro d W H x y hw hh q hq
    unfold descWindow windowList at hq
    rw [List.mem_flatMap] at hq
    obtain ⟨qy, hqy, hq⟩ := hq
    obtain ⟨qx, hqx, he⟩ := List.mem_map.mp hq
    obtain ⟨hx1, hx2⟩ := (mem_axisWindow _ _ _ _).mp hqx
    obtain ⟨hy1, hy2⟩ := (mem_axisWindow _ _ _ _).mp hqy
    rw [← he]
    simp only [windowLow, windowHigh] at hx1 hx2 hy1 hy2
    refine ⟨by omega, by omega, by omega, by omega, by omega, by omega⟩
  · intro d W H hw hh
    rw [descWindow_length]
    have hp0 : project 0 W d.width.toNat = 0 := by
      unfold project
      simp
    have hp1 : project 0 H d.height.toNat = 0 := by
      unfold project
      simp
    rw [hp0, hp1, windowExtent_corner _ _ hw, windowExtent_corner _ _ hh]
  · intro hW hH cs nFB descs seed L0 v xi yi hok hv hx hy hr hix1 hix2 hiy1 hiy2
    unfold Layer.create at hok
    split at hok
    · exact absurd hok (by simp)
    · split at hok
      · exact absurd hok (by simp)
      · have hL0 := Except.ok.inj hok
        have hdescs : L0.visibleLayerDescs = descs := by rw [← hL0]
        have hW0 : L0.hiddenWidth = hW.toNat := by rw [← hL0]
        have hffw : L0.feedForwardWeights
            = (List.range (descs.length * (hW.toNat * hH.toNat))).map
                (ffInitVec descs hW.toNat hH.toNat seed) := by rw [← hL0]
        have hw0 : 0 < (descs.getD v {}).width.toNat := by omega
        have hh0 : 0 < (descs.getD v {}).height.toNat := by omega
        have hW1 : 0 < hW.toNat := by omega
        have hH1 : 0 < hH.toNat := by omega
        have hacc : ∀ x y, x < hW.toNat → y < hH.toNat →
            L0.getFeedForwardWeights v x y
              = some (ffInitVec descs hW.toNat hH.toNat seed
                  (v + descs.length * (x + y * hW.toNat))) := by
          intro x y hx hy
          unfold Layer.getFeedForwardWeights
          rw [hffw, show L0.ffIndex v x y = v + descs.length * (x + y * hW.toNat) from by
            unfold Layer.ffIndex
            rw [hdescs, hW0]]
          exact layout_getElem? _ _ _ (ffFlat_lt _ _ _ _ _ _ hv hx hy)
        have hlen : ∀ x y, x < hW.toNat → y < hH.toNat →
            (ffInitVec descs hW.toNat hH.toNat seed
              (v + descs.length * (x + y * hW.toNat))).length
            = (descWindow (descs.getD v {}) hW.toNat hH.toNat x y).length := by
          intro x y hx hy
          unfold ffInitVec
          rw [List.length_map, List.length_range,
            flatV_add _ _ _ hv, flatX_add _ _ _ _ _ hv hx, flatY_add _ _ _ _ _ hv hx]
        rw [hacc 0 0 hW1 hH1, hacc xi yi hx hy]
        show (ffInitVec descs hW.toNat hH.toNat seed
            (v + descs.length * (0 + 0 * hW.toNat))).length
          < (ffInitVec descs hW.toNat hH.toNat seed
            (v + descs.length * (xi + yi * hW.toNat))).length
        rw [hlen 0 0 hW1 hH1, hlen xi yi hx hy, descWindow_length, descWindow_length]
        have hp0 : project 0 hW.toNat (descs.getD v {}).width.toNat = 0 := by
          unfold project
          simp
        have hp1 : project 0 hH.toNat (descs.getD v {}).height.toNat = 0 := by
          unfold project
          simp
        rw [hp0, hp1, windowExtent_corner _ _ hw0, windowExtent_corner _ _ hh0,
          windowExtent_interior _ _ _ hix1 hix2, windowExtent_interior _ _ _ hiy1 hiy2]
        have ha : min ((descs.getD v {}).radius.toNat + 1) (descs.getD v {}).height.toNat
            < 2 * (descs.getD v {}).radius.toNat + 1 := by omega
        have hb : min ((descs.getD v {}).radius.toNat + 1) (descs.getD v {}).width.toNat
            < 2 * (descs.getD v {}).radius.toNat + 1 := by omega
        exact Nat.mul_lt_mul'' ha hb

/-- A 3×3 visible layer descriptor with radius 1, for the boundary-window
witness. -/
def d3 : VisibleLayerDesc :=
  { width := 3, height := 3, chunkSize := 1, radius := 1, predict := true }

/-- The layer produced by `create` on a 3×3 configuration. -/
def sampleCreated3 : Layer :=
  match Layer.create 3 3 1 0 [d3] 5 with
  | .ok L => L
  | .error _ => sampleLayer

/-- Witness for C8 at a concrete descriptor, window and created layer. -/
theorem boundary_windows_witness :
    (0 < d3.width.toNat ∧ 0 < d3.height.toNat
      ∧ ∀ q ∈ descWindow d3 3 3 0 0,
        q.1 < d3.width.toNat ∧ q.2 < d3.height.toNat
        ∧ project 0 3 d3.width.toNat ≤ q.1 + d3.radius.toNat
        ∧ q.1 ≤ project 0 3 d3.width.toNat + d3.radius.toNat
        ∧ project 0 3 d3.height.toNat ≤ q.2 + d3.radius.toNat
        ∧ q.2 ≤ project 0 3 d3.height.toNat + d3.radius.toNat)
    ∧ ((descWindow d3 3 3 0 0).length
        = min (d3.radius.toNat + 1) d3.height.toNat * min (d3.radius.toNat + 1) d3.width.toNat)
    ∧ (Layer.create 3 3 1 0 [d3] 5 = .ok sampleCreated3
      ∧ ((sampleCreated3.getFeedForwardWeights 0 0 0).getD []).length
          < ((sampleCreated3.getFeedForwardWeights 0 1 1).getD []).length) :=
  ⟨⟨by decide, by decide,
    boundary_windows.1 d3 3 3 0 0 (by decide) (by decide)⟩,
   boundary_windows.2.1 d3 3 3 (by decide) (by decide),
   ⟨rfl,
    boundary_windows.2.2 3 3 1 0 [d3] 5 sampleCreated3 0 1 1 rfl
      (by decide) (by decide) (by decide) (by decide) (by decide) (by decide)
      (by decide) (by decide)⟩⟩

/-! Stream persistence (C3).  Modelled from the spec (§6): the stream is
a flat sequence of fixed-width numbers — a header (hidden width, hidden
height, chunk size, number of feedback layers, number of visible
layers), the descriptor fields per visible layer in fixed order, the
learning-rate scalars, then every buffer flattened in declaration order,
with no per-field length prefixes (all shapes are derivable from the
header and descriptors). -/

/-- Encode a winner-index buffer. -/
def natsToStream (xs : List Nat) : List Int := xs.map Int.ofNat

/-- Flatten a nested winner-index buffer. -/
def nested2ToStream (xss : List (List Nat)) : List Int := xss.flatMap natsToStream

/-- Flatten a nested numeric buffer. -/
def flat2ToStream (xss : List (List Int)) : List Int := xss.flatten

/-- Flatten a three-level numeric buffer. -/
def flat3ToStream (xsss : List (List (List Int))) : List Int := xsss.flatMap List.flatten

/-- Descriptor fields in fixed order (predict flag as 0/1). -/
def descToStream (d : VisibleLayerDesc) : List Int :=
  [d.width, d.height, d.chunkSize, d.radius, if d.predict then 1 else 0]

/-- Modelled from the spec (§6): `Layer::writeToStream`. -/
def Layer.writeToStream (L : Layer) : List Int :=
  [(L.hiddenWidth : Int), (L.hiddenHeight : Int), (L.chunkSize : Int),
   (L.feedBack.length : Int), (L.visibleLayerDescs.length : Int)]
  ++ (L.visibleLayerDescs.flatMap descToStream
  ++ ([L.alpha, L.beta, L.gamma]
  ++ (natsToStream L.hiddenStates
  ++ (nested2ToStream L.inputs
  ++ (nested2ToStream L.inputsPrev
  ++ (nested2ToStream L.feedBack
  ++ (nested2ToStream L.feedBackPrev
  ++ (nested2ToStream L.predictions
  ++ (flat2ToStream L.feedForwardWeights
  ++ (flat3ToStream L.predictionWeights
  ++ (flat2ToStream L.reconActivations
  ++ (flat2ToStream L.reconCounts
  ++ (flat2ToStream L.reconActivationsPrev
  ++ (flat2ToStream L.reconCountsPrev
  ++ (flat2ToStream L.predictionActivations
  ++ (flat2ToStream L.predictionCounts
  ++ flat2ToStream L.predictionActivationsPrev))))))))))))))))

/-- Read `n` numbers (fails on a truncated stream). -/
def readN (n : Nat) (s : List Int) : Option (List Int × List Int) :=
  if n ≤ s.length then some (s.take n, s.drop n) else none

/-- Read one row per entry of `shape`, each of the given length. -/
def readRows : List Nat → List Int → Option (List (List Int) × List Int)
  | [], s => some ([], s)
  | n :: shape, s =>
    (readN n s).bind fun p =>
      (readRows shape p.2).map fun q => (p.1 :: q.1, q.2)

/-- Read `n` two-level blocks of the given row shape. -/
def readRows3 : Nat → List Nat → List Int → Option (List (List (List Int)) × List Int)
  | 0, _, s => some ([], s)
  | n + 1, shape, s =>
    (readRows shape s).bind fun p =>
      (readRows3 n shape p.2).map fun q => (p.1 :: q.1, q.2)

/-- Read `n` descriptors (five fields each, fixed order). -/
def readDescs : Nat → List Int → Option (List VisibleLayerDesc × List Int)
  | 0, s => some ([], s)
  | n + 1, w :: h :: c :: r :: p :: s =>
    (readDescs n s).map fun q =>
      ({ width := w, height := h, chunkSize := c, radius := r, predict := p == 1 } :: q.1, q.2)
  | _ + 1, _ => none

/-- Per-visible-layer visible-unit counts (shape of the accumulators). -/
def visUnitsShape (descs : List VisibleLayerDesc) : List Nat :=
  descs.map fun d => d.width.toNat * d.height.toNat

/-- Per-visible-layer chunk counts (shape of the chunked SDR buffers). -/
def visChunksShape (descs : List VisibleLayerDesc) : List Nat := descs.map numVisChunks

/-- Shape of the feed-forward weight store: one clipped-window length per
flat cell. -/
def ffShape (descs : List VisibleLayerDesc) (W H : Nat) : List Nat :=
  (List.range (descs.length * (W * H))).map fun i =>
    (descWindow (descs.getD (flatV descs.length i) {}) W H
      (flatX descs.length W i) (flatY descs.length W i)).length

/-- Shape of one feedback source's prediction weight store (empty vectors
for non-predicted layers). -/
def pwShape (descs : List VisibleLayerDesc) (W H : Nat) : List Nat :=
  (List.range (descs.length * (W * H))).map fun i =>
    if (descs.getD (flatV descs.length i) {}).predict then
      (descWindow (descs.getD (flatV descs.length i) {}) W H
        (flatX descs.length W i) (flatY descs.length W i)).length
    else 0

/-- Modelled from the spec (§6): `Layer::createFromStream` — parse the
header, derive every buffer shape from it, and reconstruct the layer;
a truncated or malformed stream yields `none` with no partially
constructed state exposed. -/
def Layer.createFromStream (s : List Int) : Option Layer :=
  (readN 5 s).bind fun p5 =>
    (readDescs (p5.1.getD 4 0).toNat p5.2).bind fun pd =>
    (readN 3 pd.2).bind fun ps =>
      hdr (p5.1.getD 0 0).toNat (p5.1.getD 1 0).toNat (p5.1.getD 2 0).toNat
        (p5.1.getD 3 0).toNat pd.1 (ps.1.getD 0 0) (ps.1.getD 1 0) (ps.1.getD 2 0) ps.2
where
  /-- Body of the parse, once the header, descriptors and scalars are in
  hand. -/
  hdr (hW hH cs nFB : Nat) (descs : List VisibleLayerDesc) (a b g : Int)
      (s1 : List Int) : Option Layer :=
      (readN ((hW / cs) * (hH / cs)) s1).bind fun ph =>
      (readRows (visChunksShape descs) ph.2).bind fun pin =>
      (readRows (visChunksShape descs) pin.2).bind fun pinp =>
      (readRows (List.replicate nFB ((hW / cs) * (hH / cs))) pinp.2).bind fun pfb =>
      (readRows (List.replicate nFB ((hW / cs) * (hH / cs))) pfb.2).bind fun pfbp =>
      (readRows (visChunksShape descs) pfbp.2).bind fun ppr =>
      (readRows (ffShape descs hW hH) ppr.2).bind fun pff =>
      (readRows3 nFB (pwShape descs hW hH) pff.2).bind fun ppw =>
      (readRows (visUnitsShape descs) ppw.2).bind fun pra =>
      (readRows (visUnitsShape descs) pra.2).bind fun prc =>
      (readRows (visUnitsShape descs) prc.2).bind fun prap =>
      (readRows (visUnitsShape descs) prap.2).bind fun prcp =>
      (readRows (visUnitsShape descs) prcp.2).bind fun ppa =>
      (readRows (visUnitsShape descs) ppa.2).bind fun ppc =>
      (readRows (visUnitsShape descs) ppc.2).map fun ppap =>
      { hiddenWidth := hW
        hiddenHeight := hH
        chunkSize := cs
        hiddenStates := ph.1.map Int.toNat
        feedForwardWeights := pff.1
        predictionWeights := ppw.1
        reconActivations := pra.1
        reconCounts := prc.1
        reconActivationsPrev := prap.1
        reconCountsPrev := prcp.1
        visibleLayerDescs := descs
        predictions := ppr.1.map (List.map Int.toNat)
        predictionActivations := ppa.1
        predictionCounts := ppc.1
        predictionActivationsPrev := ppap.1
        inputs := pin.1.map (List.map Int.toNat)
        inputsPrev := pinp.1.map (List.map Int.toNat)
        feedBack := pfb.1.map (List.map Int.toNat)
        feedBackPrev := pfbp.1.map (List.map Int.toNat)
        alpha := a
        beta := b
        gamma := g }

theorem readN_append (xs r : List Int) (n : Nat) (h : xs.length = n) :
    readN n (xs ++ r) = some (xs, r) := by
  subst h
  unfold readN
  rw [if_pos (by rw [List.length_append]; omega)]
  rw [List.take_left, List.drop_left]

theorem readRows_append (xss : List (List Int)) (r : List Int) (shape : List Nat)
    (h : xss.map List.length = shape) :
    readRows shape (xss.flatten ++ r) = some (xss, r) := by
  subst h
  induction xss generalizing r with
  | nil => rfl
  | cons row xss ih =>
    rw [List.map_cons, List.flatten_cons, List.append_assoc]
    unfold readRows
    rw [readN_append row _ _ rfl, Option.some_bind, ih r]
    rfl

theorem readRows3_append (xsss : List (List (List Int))) (r : List Int) (n : Nat)
    (shape : List Nat) (hn : xsss.length = n)
    (h : ∀ row ∈ xsss, row.map List.length = shape) :
    readRows3 n shape (flat3ToStream xsss ++ r) = some (xsss, r) := by
  subst hn
  induction xsss generalizing r with
  | nil => rfl
  | cons blk xsss ih =>
    show readRows3 (xsss.length + 1) shape (flat3ToStream (blk :: xsss) ++ r) = _
    unfold readRows3
    rw [show flat3ToStream (blk :: xsss) = blk.flatten ++ flat3ToStream xsss from rfl,
      List.append_assoc,
      readRows_append blk _ shape (h blk (List.mem_cons_self _ _)), Option.some_bind,
      ih r (fun row hrow => h row (List.mem_cons_of_mem _ hrow))]
    rfl

theorem readDescs_append (ds : List VisibleLayerDesc) (r : List Int) (n : Nat)
    (h : ds.length = n) :
    readDescs n (ds.flatMap descToStream ++ r) = some (ds, r) := by
  subst h
  induction ds generalizing r with
  | nil => rfl
  | cons d ds ih =>
    have hd : VisibleLayerDesc.mk d.width d.height d.chunkSize d.radius
        ((if d.predict then (1 : Int) else 0) == 1) = d := by
      obtain ⟨w1, h1, c1, r1, p1⟩ := d
      cases p1 <;> rfl
    show (readDescs ds.length (ds.flatMap descToStream ++ r)).map
      (fun q => (VisibleLayerDesc.mk d.width d.height d.chunkSize d.radius
        ((if d.predict then (1 : Int) else 0) == 1) :: q.1, q.2))
      = some (d :: ds, r)
    rw [ih r]
    show some (_ :: ds, r) = some (d :: ds, r)
    rw [hd]

theorem natsToStream_toNat : ∀ (xs : List Nat), (natsToStream xs).map Int.toNat = xs
  | [] => rfl
  | x :: xs => by
    show (Int.ofNat x).toNat :: (natsToStream xs).map Int.toNat = x :: xs
    rw [natsToStream_toNat xs]
    rfl

theorem natsToStream_length (xs : List Nat) : (natsToStream xs).length = xs.length := by
  simp only [natsToStream, List.length_map]

theorem nested2_rows_toNat (xss : List (List Nat)) :
    (xss.map natsToStream).map (List.map Int.toNat) = xss := by
  induction xss with
  | nil => rfl
  | cons row xss ih =>
    show (natsToStream row).map Int.toNat :: (xss.map natsToStream).map (List.map Int.toNat)
      = row :: xss
    rw [ih, natsToStream_toNat]

theorem nested2_rows_length (xss : List (List Nat)) :
    (xss.map natsToStream).map List.length = xss.map List.length := by
  induction xss with
  | nil => rfl
  | cons row xss ih =>
    show (natsToStream row).length :: (xss.map natsToStream).map List.length
      = row.length :: xss.map List.length
    rw [ih, natsToStream_length]

theorem nested2ToStream_eq (xss : List (List Nat)) :
    nested2ToStream xss = (xss.map natsToStream).flatten := by
  unfold nested2ToStream
  rw [List.flatMap_def]

/-- Shape well-formedness of a layer's buffers with respect to its own
header data (every buffer has the size derivable from the header and
descriptors — the property `create` establishes and
`forward`/`backward` preserve, and exactly what makes reading a stream
without length prefixes unambiguous). -/
def StreamWF (L : Layer) : Prop :=
  L.hiddenStates.length = numHiddenChunks L
  ∧ L.inputs.map List.length = visChunksShape L.visibleLayerDescs
  ∧ L.inputsPrev.map List.length = visChunksShape L.visibleLayerDescs
  ∧ L.feedBack.map List.length = List.replicate L.feedBack.length (numHiddenChunks L)
  ∧ L.feedBackPrev.map List.length = List.replicate L.feedBack.length (numHiddenChunks L)
  ∧ L.predictions.map List.length = visChunksShape L.visibleLayerDescs
  ∧ L.feedForwardWeights.map List.length
      = ffShape L.visibleLayerDescs L.hiddenWidth L.hiddenHeight
  ∧ L.predictionWeights.length = L.feedBack.length
  ∧ (∀ r ∈ L.predictionWeights, r.map List.length
      = pwShape L.visibleLayerDescs L.hiddenWidth L.hiddenHeight)
  ∧ L.reconActivations.map List.length = visUnitsShape L.visibleLayerDescs
  ∧ L.reconCounts.map List.length = visUnitsShape L.visibleLayerDescs
  ∧ L.reconActivationsPrev.map List.length = visUnitsShape L.visibleLayerDescs
  ∧ L.reconCountsPrev.map List.length = visUnitsShape L.visibleLayerDescs
  ∧ L.predictionActivations.map List.length = visUnitsShape L.visibleLayerDescs
  ∧ L.predictionCounts.map List.length = visUnitsShape L.visibleLayerDescs
  ∧ L.predictionActivationsPrev.map List.length = visUnitsShape L.visibleLayerDescs

instance decStreamWF (L : Layer) : Decidable (StreamWF L) := by
  unfold StreamWF
  infer_instance

/-- C3: serialization round-trip.  Writing a (shape-well-formed) layer to
a stream and reading it back reconstructs the layer exactly — every
field, hence every accessor value (hidden states, feed-forward weights,
prediction weights, descriptors, learning-rate scalars), is reproduced
identically. -/
theorem stream_round_trip (L : Layer) (h : StreamWF L) :
    Layer.createFromStream (Layer.writeToStream L) = some L := by
  obtain ⟨h1, h2, h3, h4, h5, h6, h7, h8, h9, h10, h11, h12, h13, h14, h15, h16⟩ := h
  have hhs : (natsToStream L.hiddenStates).length
      = L.hiddenWidth / L.chunkSize * (L.hiddenHeight / L.chunkSize) := by
    rw [natsToStream_length]
    exact h1
  have hin : (L.inputs.map natsToStream).map List.length
      = visChunksShape L.visibleLayerDescs := (nested2_rows_length _).trans h2
  have hinp : (L.inputsPrev.map natsToStream).map List.length
      = visChunksShape L.visibleLayerDescs := (nested2_rows_length _).trans h3
  have hfb : (L.feedBack.map natsToStream).map List.length
      = List.replicate L.feedBack.length
          (L.hiddenWidth / L.chunkSize * (L.hiddenHeight / L.chunkSize)) :=
    (nested2_rows_length _).trans h4
  have hfbp : (L.feedBackPrev.map natsToStream).map List.length
      = List.replicate L.feedBack.length
          (L.hiddenWidth / L.chunkSize * (L.hiddenHeight / L.chunkSize)) :=
    (nested2_rows_length _).trans h5
  have hpr : (L.predictions.map natsToStream).map List.length
      = visChunksShape L.visibleLayerDescs := (nested2_rows_length _).trans h6
  unfold Layer.writeToStream Layer.createFromStream
  rw [readN_append [(L.hiddenWidth : Int), (L.hiddenHeight : Int), (L.chunkSize : Int),
    (L.feedBack.length : Int), (L.visibleLayerDescs.length : Int)] _ 5 rfl]
  simp only [Option.some_bind, List.getD_cons_zero, List.getD_cons_succ, Int.toNat_natCast]
  rw [readDescs_append _ _ _ rfl]
  simp only [Option.some_bind]
  rw [readN_append [L.alpha, L.beta, L.gamma] _ 3 rfl]
  simp only [Option.some_bind, List.getD_cons_zero, List.getD_cons_succ]
  unfold Layer.createFromStream.hdr
  rw [readN_append _ _ _ hhs]
  rw [Option.some_bind]
  rw [nested2ToStream_eq L.inputs]
  rw [readRows_append _ _ _ hin]
  rw [Option.some_bind]
  rw [nested2ToStream_eq L.inputsPrev]
  rw [readRows_append _ _ _ hinp]
  rw [Option.some_bind]
  rw [nested2ToStream_eq L.feedBack]
  rw [readRows_append _ _ _ hfb]
  rw [Option.some_bind]
  rw [nested2ToStream_eq L.feedBackPrev]
  rw [readRows_append _ _ _ hfbp]
  rw [Option.some_bind]
  rw [nested2ToStream_eq L.predictions]
  rw [readRows_append _ _ _ hpr]
  rw [Option.some_bind]
  rw [show flat2ToStream L.feedForwardWeights = L.feedForwardWeights.flatten from rfl]
  rw [readRows_append _ _ _ h7]
  rw [Option.some_bind]
  rw [readRows3_append _ _ _ _ h8 h9]
  rw [Option.some_bind]
  rw [show flat2ToStream L.reconActivations = L.reconActivations.flatten from rfl]
  rw [readRows_append _ _ _ h10]
  rw [Option.some_bind]
  rw [show flat2ToStream L.reconCounts = L.reconCounts.flatten from rfl]
  rw [readRows_append _ _ _ h11]
  rw [Option.some_bind]
  rw [show flat2ToStream L.reconActivationsPrev = L.reconActivationsPrev.flatten from rfl]
  rw [readRows_append _ _ _ h12]
  rw [Option.some_bind]
  rw [show flat2ToStream L.reconCountsPrev = L.reconCountsPrev.flatten from rfl]
  rw [readRows_append _ _ _ h13]
  rw [Option.some_bind]
  rw [show flat2ToStream L.predictionActivations = L.predictionActivations.flatten from rfl]
  rw [readRows_append _ _ _ h14]
  rw [Option.some_bind]
  rw [show flat2ToStream L.predictionCounts = L.predictionCounts.flatten from rfl]
  rw [readRows_append _ _ _ h15]
  rw [Option.some_bind]
  rw [show flat2ToStream L.predictionActivationsPrev
    = L.predictionActivationsPrev.flatten ++ [] from (List.append_nil _).symm]
  rw [readRows_append _ _ _ h16]
  rw [Option.map_some']
  rw [natsToStream_toNat, nested2_rows_toNat, nested2_rows_toNat, nested2_rows_toNat,
    nested2_rows_toNat, nested2_rows_toNat]

/-- Witness for C3 at a concrete layer. -/
theorem stream_round_trip_witness :
    StreamWF sampleLayer
    ∧ Layer.createFromStream (Layer.writeToStream sampleLayer) = some sampleLayer :=
  ⟨by decide, stream_round_trip sampleLayer (by decide)⟩

end eogmaneo
